import Mathlib

/-!
# Verification of the log-parsing and aggregation core

Shallow embedding of the log parsing / aggregation scripts of this
repository (`src/week4/log_analyzer.py`, `src/week4/threat_parser.py`,
`src/week4/threats_parser.py`, `src/week6/auth_scanner.py`), together with
theorems settling the frozen claims about them.

Conventions of the embedding:
* Python `collections.Counter` built by repeated `c[k] += 1` is modelled as an
  association list in key-insertion order (`countOcc`); CPython dicts preserve
  insertion order, and `Counter.most_common(n)` is a stable sort by count
  descending truncated to `n` (both `sorted(..., reverse=True)` and
  `heapq.nlargest` keep elements with equal counts in insertion order).
* Python text is assumed ASCII (the inputs are ASCII log lines); `str.upper`,
  `str.split`, `int(...)` and character tests are modelled on ASCII.
* Fallible Python code (code that can raise) returns `Except PyErr`.
* Percentages (float arithmetic guarded by zero tests in the source) are
  modelled over `ℚ`.
-/

/-! ## Counters (Python `Counter` / insertion-ordered dict with integer values)

`bump k t` models `t[k] = t.get(k, 0) + 1` on an insertion-ordered dict:
an existing key is incremented in place, a new key is appended at the end.
`countOcc l` models building a `Counter` by iterating over `l`. -/

def bump {K : Type} [DecidableEq K] (k : K) : List (K × Nat) → List (K × Nat)
  | [] => [(k, 1)]
  | (k0, c) :: rest => if k0 = k then (k0, c + 1) :: rest else (k0, c) :: bump k rest

def countOcc {K : Type} [DecidableEq K] (l : List K) : List (K × Nat) :=
  l.foldl (fun t k => bump k t) []

theorem lookup_bump {K : Type} [DecidableEq K] (k k' : K) (t : List (K × Nat)) :
    (bump k t).lookup k' = if k' = k then some (((t.lookup k').getD 0) + 1) else t.lookup k' := by
  induction t with
  | nil =>
    by_cases h : k' = k
    · subst h; simp [bump, List.lookup_cons]
    · simp [bump, List.lookup_cons, h, beq_eq_false_iff_ne.mpr h]
  | cons p rest ih =>
    obtain ⟨k0, c⟩ := p
    by_cases h0 : k0 = k
    · subst h0
      by_cases h : k' = k0
      · subst h; simp [bump, List.lookup_cons]
      · simp [bump, List.lookup_cons, h, beq_eq_false_iff_ne.mpr h]
    · by_cases h : k' = k0
      · subst h
        simp [bump, h0, List.lookup_cons]
      · simp [bump, h0, List.lookup_cons, h, beq_eq_false_iff_ne.mpr h, ih]

theorem keys_bump {K : Type} [DecidableEq K] (k : K) (t : List (K × Nat)) :
    (bump k t).map Prod.fst =
      if k ∈ t.map Prod.fst then t.map Prod.fst else t.map Prod.fst ++ [k] := by
  induction t with
  | nil => simp [bump]
  | cons p rest ih =>
    obtain ⟨k0, c⟩ := p
    by_cases h0 : k0 = k
    · subst h0; simp [bump]
    · by_cases hk : k ∈ rest.map Prod.fst <;>
        simp [bump, h0, hk, ih, Ne.symm h0]

/-! ### Keys of `countOcc` are listed in first-observed order -/

theorem countOcc_append_singleton {K : Type} [DecidableEq K] (l : List K) (k : K) :
    countOcc (l ++ [k]) = bump k (countOcc l) := by
  simp [countOcc, List.foldl_append]

/-- Invariant of the counter table built by `countOcc`: its keys are exactly
the keys of the input, listed in the order of their first occurrence
(strictly increasing first-occurrence index). -/
theorem countOcc_keys_spec {K : Type} [DecidableEq K] (l : List K) :
    (∀ x ∈ (countOcc l).map Prod.fst, x ∈ l) ∧
    (∀ x ∈ l, x ∈ (countOcc l).map Prod.fst) ∧
    ((countOcc l).map Prod.fst).Pairwise (fun a b => l.indexOf a < l.indexOf b) := by
  induction l using List.reverseRecOn with
  | nil => simp [countOcc]
  | append_singleton l k ih =>
    obtain ⟨h1, h2, h3⟩ := ih
    have hpw : ((countOcc l).map Prod.fst).Pairwise
        (fun a b => (l ++ [k]).indexOf a < (l ++ [k]).indexOf b) := by
      refine List.Pairwise.imp_of_mem ?_ h3
      intro a b ha hb hab
      rw [List.indexOf_append_of_mem (h1 a ha), List.indexOf_append_of_mem (h1 b hb)]
      exact hab
    rw [countOcc_append_singleton, keys_bump]
    by_cases hk : k ∈ (countOcc l).map Prod.fst
    · rw [if_pos hk]
      refine ⟨?_, ?_, hpw⟩
      · intro x hx
        exact List.mem_append_left _ (h1 x hx)
      · intro x hx
        rcases List.mem_append.1 hx with hx | hx
        · exact h2 x hx
        · rw [List.mem_singleton] at hx; subst hx; exact hk
    · have hkl : k ∉ l := fun h => hk (h2 k h)
      rw [if_neg hk]
      refine ⟨?_, ?_, ?_⟩
      · intro x hx
        rcases List.mem_append.1 hx with hx | hx
        · exact List.mem_append_left _ (h1 x hx)
        · rw [List.mem_singleton] at hx; subst hx; simp
      · intro x hx
        rcases List.mem_append.1 hx with hx | hx
        · exact List.mem_append_left _ (h2 x hx)
        · rw [List.mem_singleton] at hx; subst hx; simp
      · apply List.pairwise_append.2
        refine ⟨hpw, by simp, ?_⟩
        intro a ha b hb
        rw [List.mem_singleton] at hb; subst hb
        have hal : a ∈ l := h1 a ha
        rw [List.indexOf_append_of_mem hal, List.indexOf_append_of_not_mem hkl,
          List.indexOf_cons_self]
        have := List.indexOf_lt_length.2 hal
        omega

theorem countOcc_pairwise_indexOf {K : Type} [DecidableEq K] (l : List K) :
    (countOcc l).Pairwise (fun a b => l.indexOf a.1 < l.indexOf b.1) := by
  have h := (countOcc_keys_spec l).2.2
  rwa [List.pairwise_map] at h

/-! ## Stable insertion sort

`sortLe le l` is a stable sort of `l` by the boolean preorder `le`: an element
is inserted in front of the first already-placed element it is `le`-related to,
so elements that compare equal keep their original relative order.  This is
the behaviour of both Python `sorted`/`list.sort` (Timsort, stable) and
`Counter.most_common` (stable sort by count descending). -/

def insertLe {α : Type} (le : α → α → Bool) (x : α) : List α → List α
  | [] => [x]
  | y :: ys => if le x y then x :: y :: ys else y :: insertLe le x ys

def sortLe {α : Type} (le : α → α → Bool) : List α → List α
  | [] => []
  | x :: xs => insertLe le x (sortLe le xs)

theorem insertLe_perm {α : Type} (le : α → α → Bool) (x : α) (s : List α) :
    List.Perm (insertLe le x s) (x :: s) := by
  induction s with
  | nil => simp [insertLe]
  | cons y ys ih =>
    by_cases h : le x y
    · simp [insertLe, h]
    · simp only [insertLe, h, Bool.false_eq_true, if_false]
      exact (ih.cons y).trans (List.Perm.swap x y ys)

theorem sortLe_perm {α : Type} (le : α → α → Bool) (l : List α) :
    List.Perm (sortLe le l) l := by
  induction l with
  | nil => simp [sortLe]
  | cons x xs ih =>
    exact (insertLe_perm le x (sortLe le xs)).trans (ih.cons x)

theorem mem_insertLe {α : Type} (le : α → α → Bool) (x : α) (s : List α) (a : α) :
    a ∈ insertLe le x s ↔ a = x ∨ a ∈ s := by
  rw [(insertLe_perm le x s).mem_iff]
  simp

theorem sorted_insertLe {α : Type} (le : α → α → Bool)
    (htot : ∀ a b, le a b ∨ le b a) (htrans : ∀ a b c, le a b → le b c → le a c)
    (x : α) (s : List α) (hs : s.Pairwise (fun a b => le a b)) :
    (insertLe le x s).Pairwise (fun a b => le a b) := by
  induction s with
  | nil => simp [insertLe]
  | cons y ys ih =>
    rcases List.pairwise_cons.1 hs with ⟨hy, hys⟩
    by_cases h : le x y
    · simp only [insertLe, h, if_true]
      refine List.pairwise_cons.2 ⟨?_, hs⟩
      intro z hz
      rcases List.mem_cons.1 hz with hz | hz
      · subst hz; exact h
      · exact htrans x y z h (hy z hz)
    · simp only [insertLe, h, Bool.false_eq_true, if_false]
      refine List.pairwise_cons.2 ⟨?_, ih hys⟩
      intro z hz
      rcases (mem_insertLe le x ys z).1 hz with hz | hz
      · rw [hz]
        rcases htot x y with hxy | hyx
        · exact absurd hxy h
        · exact hyx
      · exact hy z hz

theorem sorted_sortLe {α : Type} (le : α → α → Bool)
    (htot : ∀ a b, le a b ∨ le b a) (htrans : ∀ a b c, le a b → le b c → le a c)
    (l : List α) : (sortLe le l).Pairwise (fun a b => le a b) := by
  induction l with
  | nil => simp [sortLe]
  | cons x xs ih => exact sorted_insertLe le htot htrans x (sortLe le xs) ih

/-- Stability: if the input is `Pairwise P` (e.g. `P` is "comes earlier in the
input"), then in the sorted output any two elements that compare `le`-equal
are still ordered by `P`. -/
theorem stable_insertLe {α : Type} (le : α → α → Bool) (P : α → α → Prop)
    (x : α) (s : List α)
    (hs : s.Pairwise (fun a b => (le a b ∧ le b a) → P a b))
    (hx : ∀ y ∈ s, P x y) :
    (insertLe le x s).Pairwise (fun a b => (le a b ∧ le b a) → P a b) := by
  induction s with
  | nil => simp [insertLe]
  | cons y ys ih =>
    rcases List.pairwise_cons.1 hs with ⟨hy, hys⟩
    by_cases h : le x y
    · simp only [insertLe, h, if_true]
      refine List.pairwise_cons.2 ⟨?_, hs⟩
      intro z hz _
      exact hx z hz
    · simp only [insertLe, h, Bool.false_eq_true, if_false]
      refine List.pairwise_cons.2 ⟨?_, ih hys (fun z hz => hx z (List.mem_cons_of_mem y hz))⟩
      intro z hz
      rcases (mem_insertLe le x ys z).1 hz with hz | hz
      · subst hz
        intro hc
        exact absurd hc.2 h
      · exact hy z hz

theorem stable_sortLe {α : Type} (le : α → α → Bool) (P : α → α → Prop)
    (l : List α) (hl : l.Pairwise P) :
    (sortLe le l).Pairwise (fun a b => (le a b ∧ le b a) → P a b) := by
  induction l with
  | nil => simp [sortLe]
  | cons x xs ih =>
    rcases List.pairwise_cons.1 hl with ⟨hx, hxs⟩
    refine stable_insertLe le P x (sortLe le xs) (ih hxs) ?_
    intro y hy
    exact hx y ((sortLe_perm le xs).mem_iff.1 hy)

/-! ## `Counter.most_common`

`cntLe` orders count-table entries by count descending; `mostCommon n`
models `Counter.most_common(n)`. -/

def cntLe {K : Type} (a b : K × Nat) : Bool := b.2 ≤ a.2

def mostCommon {K : Type} (n : Nat) (tbl : List (K × Nat)) : List (K × Nat) :=
  (sortLe cntLe tbl).take n

theorem cntLe_total {K : Type} (a b : K × Nat) : cntLe a b ∨ cntLe b a := by
  simp [cntLe]; omega

theorem cntLe_trans {K : Type} (a b c : K × Nat) :
    cntLe a b → cntLe b c → cntLe a c := by
  simp [cntLe]; omega

theorem mostCommon_sorted {K : Type} (n : Nat) (tbl : List (K × Nat)) :
    (mostCommon n tbl).Pairwise (fun a b => b.2 ≤ a.2) := by
  have h := sorted_sortLe cntLe cntLe_total cntLe_trans tbl
  have h2 := h.sublist (List.take_sublist n (sortLe cntLe tbl))
  exact h2.imp (by intro a b hab; simpa [cntLe] using hab)

theorem mostCommon_stable {K : Type} (n : Nat) (tbl : List (K × Nat))
    (P : K × Nat → K × Nat → Prop) (htbl : tbl.Pairwise P) :
    (mostCommon n tbl).Pairwise (fun a b => a.2 = b.2 → P a b) := by
  have h := stable_sortLe cntLe P tbl htbl
  have h2 := h.sublist (List.take_sublist n (sortLe cntLe tbl))
  refine h2.imp ?_
  intro a b hab heq
  exact hab (by simp [cntLe, heq])

/-! ## Python dict assignment (string-valued records)

`dictUpd t k v` models `t[k] = v` on an insertion-ordered dict: an existing
key's value is replaced in place, a new key is appended. -/

def dictUpd : List (String × String) → String → String → List (String × String)
  | [], k, v => [(k, v)]
  | (k0, v0) :: rest, k, v =>
    if k0 = k then (k0, v) :: rest else (k0, v0) :: dictUpd rest k v

theorem lookup_dictUpd (t : List (String × String)) (k v k' : String) :
    (dictUpd t k v).lookup k' = if k' = k then some v else t.lookup k' := by
  induction t with
  | nil =>
    by_cases h : k' = k
    · subst h; simp [dictUpd, List.lookup_cons]
    · simp [dictUpd, List.lookup_cons, h, beq_eq_false_iff_ne.mpr h]
  | cons p rest ih =>
    obtain ⟨k0, v0⟩ := p
    by_cases h0 : k0 = k
    · subst h0
      by_cases h : k' = k0
      · subst h; simp [dictUpd, List.lookup_cons]
      · simp [dictUpd, List.lookup_cons, h, beq_eq_false_iff_ne.mpr h]
    · by_cases h : k' = k0
      · subst h
        simp [dictUpd, h0, List.lookup_cons]
      · simp [dictUpd, h0, List.lookup_cons, h, beq_eq_false_iff_ne.mpr h, ih]

theorem lookup_append_str (l1 l2 : List (String × String)) (k : String) :
    (l1 ++ l2).lookup k = ((l1.lookup k).or (l2.lookup k)) := by
  induction l1 with
  | nil => simp
  | cons p rest ih =>
    obtain ⟨k0, v0⟩ := p
    by_cases h : k = k0
    · subst h; simp [List.lookup_cons]
    · simp [List.lookup_cons, beq_eq_false_iff_ne.mpr h, ih]

/-- Looking a key up after a sequence of dict assignments returns the value of
the last assignment to that key, falling back to the initial table. -/
theorem lookup_foldl_dictUpd (kvs : List (String × String))
    (init : List (String × String)) (k : String) :
    (kvs.foldl (fun t kv => dictUpd t kv.1 kv.2) init).lookup k =
      ((kvs.reverse.lookup k).or (init.lookup k)) := by
  induction kvs generalizing init with
  | nil => simp
  | cons p rest ih =>
    obtain ⟨k0, v0⟩ := p
    rw [List.foldl_cons, ih, List.reverse_cons, lookup_append_str]
    by_cases h : k = k0
    · subst h
      simp [lookup_dictUpd, List.lookup_cons]
      cases rest.reverse.lookup k <;> simp
    · simp [lookup_dictUpd, h, List.lookup_cons, beq_eq_false_iff_ne.mpr h]

/-- Folding a step function that first extracts with `g` and skips `none`
equals folding over the `filterMap`. -/
theorem foldl_skip_none {α β γ : Type} (g : β → Option γ) (f : α → γ → α) :
    ∀ (l : List β) (a : α),
      l.foldl (fun t x => match g x with | some y => f t y | none => t) a =
        (l.filterMap g).foldl f a := by
  intro l
  induction l with
  | nil => intro a; simp
  | cons x xs ih =>
    intro a
    cases h : g x <;> simp [List.filterMap_cons, h, ih]

/-! ## ASCII string helpers (Python text built-ins on ASCII data) -/

/-- The ASCII whitespace characters recognised by Python `str.split()` /
`str.strip()` (the inputs are ASCII log lines). -/
def isPySpace (c : Char) : Bool :=
  c = ' ' || c = '\t' || c = '\n' || c = '\r' || c = '\x0b' || c = '\x0c'

/-- Worker for `splitWs`: accumulates the current (reversed) token. -/
def splitWsAux : List Char → List Char → List (List Char)
  | acc, [] => if acc.isEmpty then [] else [acc.reverse]
  | acc, c :: cs =>
    if isPySpace c then
      if acc.isEmpty then splitWsAux [] cs else acc.reverse :: splitWsAux [] cs
    else splitWsAux (c :: acc) cs

/-- Python `str.split()` with no argument: split on runs of whitespace,
dropping leading/trailing whitespace (never yields empty tokens). -/
def splitWs (s : String) : List String :=
  (splitWsAux [] s.toList).map (fun cs => String.mk cs)

/-- Python `str.upper()` on ASCII text. -/
def pyUpper (s : String) : String :=
  String.mk (s.toList.map Char.toUpper)

def digitVal (c : Char) : Nat := c.toNat - '0'.toNat

/-- Digit run of Python `int(...)`: one or more ASCII digits, with single
underscores allowed between digits (Python 3.6+). -/
def pyIntDigits : Nat → List Char → Option Nat
  | acc, [] => some acc
  | acc, '_' :: c :: cs =>
    if c.isDigit then pyIntDigits (acc * 10 + digitVal c) cs else none
  | _, ['_'] => none
  | acc, c :: cs =>
    if c.isDigit then pyIntDigits (acc * 10 + digitVal c) cs else none

/-- Python `int(s)` on a whitespace-free ASCII token (the tokens produced by
`str.split()` contain no whitespace, so `int`'s stripping is irrelevant
here): an optional sign followed by digits, `none` on `ValueError`. -/
def pyInt (s : String) : Option Int :=
  match s.toList with
  | '-' :: c :: cs =>
    if c.isDigit then (pyIntDigits (digitVal c) cs).map (fun n => -(n : Int)) else none
  | '+' :: c :: cs =>
    if c.isDigit then (pyIntDigits (digitVal c) cs).map (fun n => (n : Int)) else none
  | c :: cs =>
    if c.isDigit then (pyIntDigits (digitVal c) cs).map (fun n => (n : Int)) else none
  | [] => none

/-- Split a token at its first `'='`: `none` when the token has no `'='`
(models `"=" in item` followed by `item.split("=", 1)`). -/
def splitEq1 : List Char → Option (List Char × List Char)
  | [] => none
  | c :: cs =>
    if c = '=' then some ([], cs)
    else (splitEq1 cs).map (fun p => (c :: p.1, p.2))

theorem splitEq1_eq_some (cs k v : List Char) :
    splitEq1 cs = some (k, v) ↔ cs = k ++ '=' :: v ∧ '=' ∉ k := by
  induction cs generalizing k with
  | nil => simp [splitEq1]
  | cons c cs ih =>
    by_cases h : c = '='
    · subst h
      simp only [splitEq1, if_pos rfl]
      constructor
      · intro he
        injection he with he
        injection he with h1 h2
        subst h1; subst h2
        simp
      · rintro ⟨he, hk⟩
        cases k with
        | nil => simp at he; simp [he]
        | cons a k' =>
          injection he with h1 h2
          subst h1
          exact absurd (List.mem_cons_self '=' k') hk
    · simp only [splitEq1, if_neg h]
      constructor
      · intro he
        rcases Option.map_eq_some'.1 he with ⟨⟨k0, v0⟩, hs, hp⟩
        have h1 : c :: k0 = k := congrArg Prod.fst hp
        have h2 : v0 = v := congrArg Prod.snd hp
        subst h2
        rcases (ih k0).1 hs with ⟨he0, hk0⟩
        constructor
        · rw [← h1, he0]; rfl
        · rw [← h1]
          intro hc
          rcases List.mem_cons.1 hc with hc | hc
          · exact h hc.symm
          · exact hk0 hc
      · rintro ⟨he, hk⟩
        cases k with
        | nil =>
          injection he with h1
          exact absurd h1 h
        | cons a k' =>
          injection he with h1 h2
          have hk' : '=' ∉ k' := fun hc => hk (List.mem_cons_of_mem a hc)
          have hs : splitEq1 cs = some (k', v) := (ih k').2 ⟨h2, hk'⟩
          rw [hs]
          simp [h1]

/-! ## `src/week6/auth_scanner.py` -/

/-- One `key=value` token of an auth log line: `none` when the token has no
`'='` or its key or value is empty (those tokens are silently skipped). -/
def kvOf (tok : String) : Option (String × String) :=
  match splitEq1 tok.toList with
  | some (k, v) =>
    if k.isEmpty || v.isEmpty then none else some (String.mk k, String.mk v)
  | none => none

/-- One step of the `for item in parts[2:]` loop of `parse_log_line`:
a well-formed `key=value` token is written into the record dict
(overwriting an existing key), anything else is skipped. -/
def applyKV (t : List (String × String)) (item : String) : List (String × String) :=
  match kvOf item with
  | some (k, v) => dictUpd t k v
  | none => t

/-- Embeds `parse_log_line` of `src/week6/auth_scanner.py`: requires a non-blank
line with at least 3 whitespace-separated tokens whose first token contains
`'-'` and second contains `':'`; builds a record dict seeded with
`timestamp = parts[0] + " " + parts[1]` and then folds the remaining tokens
through `applyKV`. -/
def parse_log_line (line : String) : Option (List (String × String)) :=
  if line.toList.all isPySpace then none
  else
    match splitWs line with
    | p0 :: p1 :: p2 :: rest =>
      if ('-' ∈ p0.toList) ∧ (':' ∈ p1.toList) then
        some ((p2 :: rest).foldl applyKV [("timestamp", p0 ++ " " ++ p1)])
      else none
    | _ => none

/-- The sequence of users of failed logins, in input order: the `user` values
counted into `user_counts` by the `process_logs` loop. -/
def failUsers (lines : List String) : List String :=
  lines.filterMap (fun ln =>
    match parse_log_line ln with
    | some r =>
      if r.lookup "status" = some "FAIL" then
        match r.lookup "user" with
        | some u => if u.isEmpty then none else some u
        | none => none
      else none
    | none => none)

/-- The sequence of source IPs of failed logins, in input order. -/
def failIps (lines : List String) : List String :=
  lines.filterMap (fun ln =>
    match parse_log_line ln with
    | some r =>
      if r.lookup "status" = some "FAIL" then
        match r.lookup "ip" with
        | some ip => if ip.isEmpty then none else some ip
        | none => none
      else none
    | none => none)

structure Stats where
  total_lines : Nat
  parsed_lines : Nat
  fail_count : Nat
  user_counts : List (String × Nat)
  ip_counts : List (String × Nat)
  deriving DecidableEq

/-- Embeds `process_logs` of `src/week6/auth_scanner.py`.  The single loop
accumulates five independent quantities; each field below is that
accumulator's final value: line/parse/fail tallies, and the two `Counter`s
built over the `user` / `ip` values of `status == "FAIL"` records (a missing
or falsy value is not counted). -/
def process_logs (lines : List String) : Stats :=
  { total_lines := lines.length
    parsed_lines := (lines.filterMap parse_log_line).length
    fail_count :=
      (lines.filterMap parse_log_line).countP
        (fun r => r.lookup "status" = some "FAIL")
    user_counts := countOcc (failUsers lines)
    ip_counts := countOcc (failIps lines) }

/-- Round-half-to-even on an exact rational (the behaviour of Python
`round` and of fixed-precision float formatting, at the value level). -/
def roundHE (q : ℚ) : ℤ :=
  let f := ⌊q⌋
  if q - f < 1 / 2 then f
  else if 1 / 2 < q - f then f + 1
  else if Even f then f else f + 1

/-- Python `round(q, d)` at the value level (on exact rationals). -/
def roundTo (d : Nat) (q : ℚ) : ℚ :=
  (roundHE (q * 10 ^ d) : ℚ) / 10 ^ d

/-- The failure-rate ratio shared by both reports of `auth_scanner.py`:
`fail_count / parsed_lines * 100`, `0` when no line parsed. -/
def failureRate (stats : Stats) : ℚ :=
  if 0 < stats.parsed_lines then
    (stats.fail_count : ℚ) / (stats.parsed_lines : ℚ) * 100
  else 0

structure ReportData where
  analyst : String
  total_logs : Nat
  parsed_logs : Nat
  failed_logins : Nat
  failure_rate_percent : ℚ
  top_users : List (String × Nat)
  top_ips : List (String × Nat)
  deriving DecidableEq

/-- Embeds `build_report_data` of `src/week6/auth_scanner.py` (the JSON summary).
`generated_at` (wall-clock time) is outside the model; `failure_rate_percent`
is `round(failure_rate, 2)`; the top lists are `most_common(5)` of the two
counters, kept as ordered `(key, count)` pairs. -/
def build_report_data (stats : Stats) (analyst_name : String) : ReportData :=
  { analyst := analyst_name
    total_logs := stats.total_lines
    parsed_logs := stats.parsed_lines
    failed_logins := stats.fail_count
    failure_rate_percent := roundTo 2 (failureRate stats)
    top_users := mostCommon 5 stats.user_counts
    top_ips := mostCommon 5 stats.ip_counts }

structure HumanReport where
  analyst : String
  total_logs : Nat
  parsed_logs : Nat
  failed_logins : Nat
  failure_rate_shown : ℚ
  top_users : List (String × Nat)
  top_ips : List (String × Nat)
  deriving DecidableEq

/-- Embeds `generate_human_report` of `src/week6/auth_scanner.py`, modelled at the
level of the numbers interpolated into the text block (the spec excludes
byte-level layout): the three counts are shown as-is, the failure rate is
shown with `"%.1f"` (one decimal), and the two top-5 tables list
`most_common(5)` pairs. -/
def generate_human_report (stats : Stats) (analyst_name : String) : HumanReport :=
  { analyst := analyst_name
    total_logs := stats.total_lines
    parsed_logs := stats.parsed_lines
    failed_logins := stats.fail_count
    failure_rate_shown := roundTo 1 (failureRate stats)
    top_users := mostCommon 5 stats.user_counts
    top_ips := mostCommon 5 stats.ip_counts }

/-! ## `src/week4/log_analyzer.py` -/

/-- One parsed firewall log record (`entry` dict of `parse_log_file`).
`port` is `int(parts[5])`, so it is a (possibly negative) integer. -/
structure Entry where
  date : String
  time : String
  action : String
  source_ip : String
  dest_ip : String
  port : Int
  deriving DecidableEq

/-- The per-line body of `parse_log_file`: a blank line is skipped, a line
with fewer than 6 whitespace-separated tokens is skipped, and a line whose
sixth token fails `int(...)` raises `ValueError`, caught and skipped; extra
tokens are ignored and `action` is upper-cased. -/
def parse_firewall_line (line : String) : Option Entry :=
  if line.toList.all isPySpace then none
  else
    match splitWs line with
    | p0 :: p1 :: p2 :: p3 :: p4 :: p5 :: _ =>
      match pyInt p5 with
      | some n =>
        some { date := p0, time := p1, action := pyUpper p2,
               source_ip := p3, dest_ip := p4, port := n }
      | none => none
    | _ => none

/-- Embeds `parse_log_file` of `src/week4/log_analyzer.py` over an
already-materialised list of lines: parse failures are skipped, the batch
continues. -/
def parse_log_file (lines : List String) : List Entry :=
  lines.filterMap parse_firewall_line

/-- A parsed `datetime` value (year, month, day, hour, minute, second). -/
structure DT where
  year : Nat
  month : Nat
  day : Nat
  hour : Nat
  minute : Nat
  second : Nat
  deriving DecidableEq

/-- Exactly four ASCII digits (the `%Y` field of `strptime`). -/
def digits4 : List Char → Option (Nat × List Char)
  | c1 :: c2 :: c3 :: c4 :: rest =>
    if c1.isDigit && c2.isDigit && c3.isDigit && c4.isDigit then
      some (((digitVal c1 * 10 + digitVal c2) * 10 + digitVal c3) * 10 + digitVal c4, rest)
    else none
  | _ => none

/-- One or two ASCII digits, greedily (the `%m`/`%d`/`%H`/`%M`/`%S` fields
of `strptime`; greediness agrees with the `strptime` regex because the
following literal separator is never a digit). -/
def digits2 : List Char → Option (Nat × List Char)
  | [] => none
  | c1 :: rest =>
    if c1.isDigit then
      match rest with
      | c2 :: rest2 =>
        if c2.isDigit then some (digitVal c1 * 10 + digitVal c2, rest2)
        else some (digitVal c1, rest)
      | [] => some (digitVal c1, [])
    else none

def expectCh (c : Char) : List Char → Option (List Char)
  | c0 :: rest => if c0 = c then some rest else none
  | [] => none

def isLeap (y : Nat) : Bool :=
  (y % 4 = 0 && y % 100 ≠ 0) || y % 400 = 0

def daysInMonth (y m : Nat) : Nat :=
  if m = 2 then (if isLeap y then 29 else 28)
  else if m = 4 || m = 6 || m = 9 || m = 11 then 30
  else 31

/-- Field validation of `datetime.strptime(s, "%Y-%m-%d %H:%M:%S")` /
the `datetime` constructor: calendar-valid date (with leap years), hour
0–23, minute 0–59, second 0–59 (the constructor rejects the leap seconds
60/61 that the `%S` pattern alone would admit), year 1–9999. -/
def mkValidDT (y mo d h mi s : Nat) : Option DT :=
  if 1 ≤ y ∧ y ≤ 9999 ∧ 1 ≤ mo ∧ mo ≤ 12 ∧ 1 ≤ d ∧ d ≤ daysInMonth y mo ∧
      h ≤ 23 ∧ mi ≤ 59 ∧ s ≤ 59 then
    some { year := y, month := mo, day := d, hour := h, minute := mi, second := s }
  else none

/-- Embeds `datetime.strptime(s, "%Y-%m-%d %H:%M:%S")`: `none` models the
`ValueError` that `analyze_logs` catches.  The whole string must be
consumed. -/
def parseTs (s : String) : Option DT := do
  let (y, r1) ← digits4 s.toList
  let r2 ← expectCh '-' r1
  let (mo, r3) ← digits2 r2
  let r4 ← expectCh '-' r3
  let (d, r5) ← digits2 r4
  let r6 ← expectCh ' ' r5
  let (h, r7) ← digits2 r6
  let r8 ← expectCh ':' r7
  let (mi, r9) ← digits2 r8
  let r10 ← expectCh ':' r9
  let (sec, r11) ← digits2 r10
  if r11.isEmpty then mkValidDT y mo d h mi sec else none

/-- Mixed-radix key giving the chronological (lexicographic) order of valid
`DT` values; `datetime` comparison is lexicographic on the six fields. -/
def toKey (dt : DT) : Nat :=
  ((((dt.year * 13 + dt.month) * 32 + dt.day) * 24 + dt.hour) * 60 + dt.minute) * 60
    + dt.second

def tsLe (a b : DT) : Bool := toKey a ≤ toKey b

def pad2 (n : Nat) : String := if n < 10 then "0" ++ toString n else toString n

def pad4 (n : Nat) : String :=
  if n < 10 then "000" ++ toString n
  else if n < 100 then "00" ++ toString n
  else if n < 1000 then "0" ++ toString n
  else toString n

/-- Embeds `dt.strftime("%Y-%m-%d %H:%M:%S")`: zero-padded canonical form. -/
def fmtDT (dt : DT) : String :=
  pad4 dt.year ++ "-" ++ pad2 dt.month ++ "-" ++ pad2 dt.day ++ " " ++
    pad2 dt.hour ++ ":" ++ pad2 dt.minute ++ ":" ++ pad2 dt.second

/-- The timestamp of a firewall record, as parsed by the `analyze_logs`
loop from `entry['date'] + " " + entry['time']`. -/
def entryTs (e : Entry) : Option DT := parseTs (e.date ++ " " ++ e.time)

/-- The denied ports in input order (the `denied_ports` list built by the
`analyze_logs` loop). -/
def deniedPorts (entries : List Entry) : List Int :=
  entries.filterMap (fun e => if e.action = "DENY" then some e.port else none)

structure Analysis where
  total_entries : Nat
  allow_count : Nat
  deny_count : Nat
  denied_source_ips : List String
  most_targeted_port : Option Int
  most_targeted_count : Nat
  time_first : String
  time_last : String
  deriving DecidableEq

def strLe (a b : String) : Bool := a ≤ b

/-- First-occurrence deduplication: the contents of a Python `set` built by
repeated `add` (iteration order of the set itself is not observable here
because the source always sorts it before use). -/
def dedupFirst {α : Type} [DecidableEq α] (l : List α) : List α :=
  l.foldl (fun acc x => if x ∈ acc then acc else acc ++ [x]) []

/-- Embeds `analyze_logs` of `src/week4/log_analyzer.py`.  The loop accumulates
independent quantities (counts, the `denied_ips` set, the `denied_ports`
list, the parsed timestamps); `most_common(1)` of the port counter is the
head of its stable count-descending sort, the timestamps are sorted and the
ends formatted back, `"N/A"` when no timestamp parsed. -/
def analyze_logs (entries : List Entry) : Analysis :=
  let denied := deniedPorts entries
  let port_counter := countOcc denied
  let sorted_ports := sortLe cntLe port_counter
  let timestamps := entries.filterMap entryTs
  let sorted_ts := sortLe tsLe timestamps
  { total_entries := entries.length
    allow_count := entries.countP (fun e => e.action = "ALLOW")
    deny_count := entries.countP (fun e => e.action = "DENY")
    denied_source_ips :=
      sortLe strLe (dedupFirst (entries.filterMap
        (fun e => if e.action = "DENY" then some e.source_ip else none)))
    most_targeted_port := (sorted_ports.head?).map Prod.fst
    most_targeted_count := ((sorted_ports.head?).map Prod.snd).getD 0
    time_first := match sorted_ts.head? with
      | some dt => fmtDT dt
      | none => "N/A"
    time_last := match sorted_ts.getLast? with
      | some dt => fmtDT dt
      | none => "N/A" }

/-- The deny percentage printed by `display_summary`:
`deny_count / total_entries * 100`, `0` when there are no entries. -/
def denyPct (a : Analysis) : ℚ :=
  if 0 < a.total_entries then (a.deny_count : ℚ) / (a.total_entries : ℚ) * 100 else 0

/-- The most-targeted-port section of `display_summary`: printed only when
`analysis['most_targeted_port']` is truthy (present and non-zero). -/
def portSection (a : Analysis) : List String :=
  match a.most_targeted_port with
  | some p =>
    if p ≠ 0 then
      ["Most targeted port: " ++ toString p,
       "Attacked " ++ toString a.most_targeted_count ++ " times", ""]
    else []
  | none => []

/-! ## JSON-like values and Python dynamic semantics

`JVal` models the values a `json.load`ed threat document can contain
(floats and `None` dict keys aside, structural equality stands in for
Python `==` on these values).  Operations that can raise return
`Except PyErr`. -/

inductive PyErr where
  | attributeError
  | typeError
  deriving DecidableEq

def exceptDecEq {E A : Type} [DecidableEq E] [DecidableEq A] :
    (a b : Except E A) → Decidable (a = b)
  | .error e1, .error e2 =>
    decidable_of_iff (e1 = e2)
      ⟨fun h => by rw [h], fun h => by injection h⟩
  | .ok a1, .ok a2 =>
    decidable_of_iff (a1 = a2)
      ⟨fun h => by rw [h], fun h => by injection h⟩
  | .error _, .ok _ => .isFalse (fun h => Except.noConfusion h)
  | .ok _, .error _ => .isFalse (fun h => Except.noConfusion h)

instance {E A : Type} [DecidableEq E] [DecidableEq A] : DecidableEq (Except E A) :=
  exceptDecEq

inductive JVal where
  | null
  | bool (b : Bool)
  | int (n : Int)
  | str (s : String)
  | list (xs : List JVal)
  | dict (kvs : List (String × JVal))

mutual

def JVal.beq : JVal → JVal → Bool
  | .null, .null => true
  | .bool a, .bool b => a == b
  | .int a, .int b => a == b
  | .str a, .str b => a == b
  | .list xs, .list ys => JVal.beqList xs ys
  | .dict xs, .dict ys => JVal.beqKVList xs ys
  | _, _ => false

def JVal.beqList : List JVal → List JVal → Bool
  | [], [] => true
  | x :: xs, y :: ys => JVal.beq x y && JVal.beqList xs ys
  | _, _ => false

def JVal.beqKVList : List (String × JVal) → List (String × JVal) → Bool
  | [], [] => true
  | (k1, v1) :: xs, (k2, v2) :: ys =>
    k1 == k2 && JVal.beq v1 v2 && JVal.beqKVList xs ys
  | _, _ => false

end

mutual

theorem JVal.beq_iff : ∀ (a b : JVal), JVal.beq a b = true ↔ a = b
  | .null, b => by cases b <;> simp [JVal.beq]
  | .bool a, b => by cases b <;> simp [JVal.beq]
  | .int a, b => by cases b <;> simp [JVal.beq]
  | .str a, b => by cases b <;> simp [JVal.beq]
  | .list xs, b => by
    cases b <;> simp [JVal.beq]
    exact JVal.beqList_iff xs _
  | .dict xs, b => by
    cases b <;> simp [JVal.beq]
    exact JVal.beqKVList_iff xs _

theorem JVal.beqList_iff : ∀ (xs ys : List JVal), JVal.beqList xs ys = true ↔ xs = ys
  | [], ys => by cases ys <;> simp [JVal.beqList]
  | x :: xs, ys => by
    cases ys with
    | nil => simp [JVal.beqList]
    | cons y ys =>
      simp [JVal.beqList, JVal.beq_iff x y, JVal.beqList_iff xs ys]

theorem JVal.beqKVList_iff :
    ∀ (xs ys : List (String × JVal)), JVal.beqKVList xs ys = true ↔ xs = ys
  | [], ys => by cases ys <;> simp [JVal.beqKVList]
  | (k1, v1) :: xs, ys => by
    cases ys with
    | nil => simp [JVal.beqKVList]
    | cons p ys =>
      obtain ⟨k2, v2⟩ := p
      simp [JVal.beqKVList, JVal.beq_iff v1 v2, JVal.beqKVList_iff xs ys,
        and_assoc]

end

instance : DecidableEq JVal := fun a b => decidable_of_iff _ (JVal.beq_iff a b)

/-- Python truthiness (`if v:`). -/
def JVal.truthy : JVal → Bool
  | .null => false
  | .bool b => b
  | .int n => n ≠ 0
  | .str s => ¬s.isEmpty
  | .list xs => ¬xs.isEmpty
  | .dict kvs => ¬kvs.isEmpty

/-- Whether the value is hashable (usable as a dict key / set element):
lists and dicts are not. -/
def JVal.hashable : JVal → Bool
  | .list _ => false
  | .dict _ => false
  | _ => true

/-- Models `v.get(k, d)`: defined for dicts, `AttributeError` on any other value. -/
def pyGetD (v : JVal) (k : String) (d : JVal) : Except PyErr JVal :=
  match v with
  | .dict kvs => .ok ((kvs.lookup k).getD d)
  | _ => .error .attributeError

/-- Models `v.upper()`: defined for strings only. -/
def pyUpperV (v : JVal) : Except PyErr String :=
  match v with
  | .str s => .ok (pyUpper s)
  | _ => .error .attributeError

/-- Models `for x in v`: the element sequence of an iterable (a string yields its
characters, a dict its keys), `TypeError` for non-iterables. -/
def pyIter (v : JVal) : Except PyErr (List JVal) :=
  match v with
  | .list xs => .ok xs
  | .str s => .ok (s.toList.map (fun c => JVal.str (String.mk [c])))
  | .dict kvs => .ok (kvs.map (fun kv => JVal.str kv.1))
  | _ => .error .typeError

/-- Raises `TypeError` unless the condition holds (hashability checks). -/
def ensure (b : Bool) : Except PyErr Unit :=
  if b then .ok () else .error .typeError

/-- The elements added by `someSet.update(v)`: iterates `v` and requires
every element to be hashable. -/
def setUpdateElems (v : JVal) : Except PyErr (List JVal) := do
  let xs ← pyIter v
  let _ ← ensure (xs.all JVal.hashable)
  .ok xs

/-- Lexicographic `<` on code points (Python string comparison). -/
def strLtChars : List Char → List Char → Bool
  | [], [] => false
  | [], _ :: _ => true
  | _ :: _, [] => false
  | x :: xs, y :: ys =>
    if x.toNat < y.toNat then true
    else if y.toNat < x.toNat then false
    else strLtChars xs ys

def strLtB (a b : String) : Bool := strLtChars a.toList b.toList

/-- Python `<` on set-storable (hashable) values: numbers compare
numerically (`bool` counts as 0/1), strings lexicographically by code
point; any other combination raises `TypeError`. -/
def pyLtB (a b : JVal) : Except PyErr Bool :=
  match a, b with
  | .int x, .int y => .ok (x < y)
  | .int x, .bool y => .ok (x < (if y then 1 else 0))
  | .bool x, .int y => .ok ((if x then (1 : Int) else 0) < y)
  | .bool x, .bool y => .ok ((if x then (1 : Int) else 0) < (if y then 1 else 0))
  | .str x, .str y => .ok (strLtB x y)
  | _, _ => .error .typeError

/-- Fallible insertion into an ascending list, comparing with `pyLtB`. -/
def pyInsert (x : JVal) : List JVal → Except PyErr (List JVal)
  | [] => .ok [x]
  | y :: ys => do
    if ← pyLtB x y then .ok (x :: y :: ys)
    else do
      let r ← pyInsert x ys
      .ok (y :: r)

/-- Python `sorted(xs)` (here only applied to deduplicated hashable set
contents, so stability and the exact comparison schedule of Timsort do not
matter: with zero or one elements no comparison is made, and otherwise a
mixed-type list raises `TypeError` just as in CPython). -/
def pySorted : List JVal → Except PyErr (List JVal)
  | [] => .ok []
  | x :: xs => do pyInsert x (← pySorted xs)

/-! ## `src/week4/threat_parser.py` (severity table NOT pre-seeded) -/

namespace ThreatParser

/-- The `indicators.ips` read of `analyze_threats`:
`threat.get('indicators', {}).get('ips', [])`. -/
def ipsRead (t : JVal) : Except PyErr JVal := do
  let ind ← pyGetD t "indicators" (.dict [])
  pyGetD ind "ips" (.list [])

/-- What `all_ips.update(ips)` contributes for one threat: the read value is
iterated as a set update (so a present non-list such as a string is NOT
discarded, and a non-iterable raises). -/
def ipsContrib (t : JVal) : Except PyErr (List JVal) := do
  let v ← ipsRead t
  setUpdateElems v

structure St where
  sev : List (JVal × Nat)
  ips : List JVal
  exploits : List (JVal × JVal × JVal)

/-- Add elements to the model of a Python `set` (first-occurrence order;
the set's own iteration order is never observed by the source, which sorts
or counts it). -/
def setAddAll (acc : List JVal) (xs : List JVal) : List JVal :=
  xs.foldl (fun acc x => if x ∈ acc then acc else acc ++ [x]) acc

/-- One iteration of the `for threat in threats` loop of `analyze_threats`:
severity counting (`severity_counts[severity] = severity_counts.get(severity, 0) + 1`
with default severity `'UNKNOWN'`, requiring a hashable key), then the IP
set update, then the `active_exploit` check with defaulted fields. -/
def step (st : St) (t : JVal) : Except PyErr St := do
  let sev ← pyGetD t "severity" (.str "UNKNOWN")
  let _ ← ensure sev.hashable
  let elems ← ipsContrib t
  let ae ← pyGetD t "active_exploit" (.bool false)
  let i ← pyGetD t "id" (.str "N/A")
  let ty ← pyGetD t "type" (.str "N/A")
  let de ← pyGetD t "description" (.str "No description")
  .ok { sev := bump sev st.sev
        ips := setAddAll st.ips elems
        exploits := if ae.truthy then st.exploits ++ [(i, ty, de)] else st.exploits }

structure Result where
  total_threats : Nat
  severity_counts : List (JVal × Nat)
  unique_ips : List JVal
  total_ips : Nat
  active_exploits : List (JVal × JVal × JVal)
  critical_percentage : ℚ

/-- Embeds `analyze_threats` of `src/week4/threat_parser.py`: the severity table
starts EMPTY (no pre-seeding); `unique_ips` is `sorted(all_ips)` over the
set of collected IPs, `total_ips` is the set's size, and
`critical_percentage` divides `severity_counts.get('CRITICAL', 0)` by the
threat count, `0` when there are no threats. -/
def analyze_threats (threat_data : JVal) : Except PyErr Result := do
  let threatsV ← pyGetD threat_data "threats" (.list [])
  let threats ← pyIter threatsV
  let st ← threats.foldlM step { sev := [], ips := [], exploits := [] }
  let sorted_ips ← pySorted st.ips
  let total := threats.length
  .ok { total_threats := total
        severity_counts := st.sev
        unique_ips := sorted_ips
        total_ips := st.ips.length
        active_exploits := st.exploits
        critical_percentage :=
          if 0 < total then
            (((st.sev.lookup (JVal.str "CRITICAL")).getD 0 : ℚ) / (total : ℚ)) * 100
          else 0 }

/-- The severity-breakdown lines of `generate_report`
(`src/week4/threat_parser.py`): one line per severity in the fixed order
CRITICAL/HIGH/MEDIUM/LOW/UNKNOWN, but ONLY when its count is positive. -/
def sevLines (analysis : Result) : List String :=
  (["CRITICAL", "HIGH", "MEDIUM", "LOW", "UNKNOWN"].filterMap (fun sev =>
    let count := (analysis.severity_counts.lookup (JVal.str sev)).getD 0
    if 0 < count then some (sev ++ ": " ++ toString count ++ " threats") else none))

end ThreatParser

/-! ## `src/week4/threats_parser.py` (severity table pre-seeded) -/

namespace ThreatsParser

/-- The severity read of this variant:
`threat.get('severity', 'LOW').upper()` — default `'LOW'`, upper-cased
(raising on a present non-string severity). -/
def sevOf (t : JVal) : Except PyErr String := do
  let v ← pyGetD t "severity" (.str "LOW")
  pyUpperV v

/-- The `indicators.ips` read, shared shape with the other variant. -/
def ipsRead (t : JVal) : Except PyErr JVal := do
  let ind ← pyGetD t "indicators" (.dict [])
  pyGetD ind "ips" (.list [])

/-- What one threat contributes to `all_ips` in this variant:
`if isinstance(ips, list): all_ips.extend(ips)` — a present non-list is
silently ignored. -/
def ipsContrib (t : JVal) : Except PyErr (List JVal) := do
  let v ← ipsRead t
  match v with
  | .list xs => .ok xs
  | _ => .ok []

structure St where
  sev : List (String × Nat)
  ips : List JVal
  exploits : List (JVal × JVal × JVal)

/-- The pre-seeded severity table (`severity_counts = {'CRITICAL': 0, ...}`). -/
def seed : List (String × Nat) :=
  [("CRITICAL", 0), ("HIGH", 0), ("MEDIUM", 0), ("LOW", 0)]

/-- One iteration of the loop of this variant's `analyze_threats`:
unknown severities are added on the fly (`if severity not in severity_counts:
severity_counts[severity] = 0` then increment — jointly `bump`), the IP
list is extended only by list-valued `ips`, exploits as in the other
variant. -/
def step (st : St) (t : JVal) : Except PyErr St := do
  let sev ← sevOf t
  let elems ← ipsContrib t
  let ae ← pyGetD t "active_exploit" (.bool false)
  let i ← pyGetD t "id" (.str "UNKNOWN")
  let ty ← pyGetD t "type" (.str "unknown")
  let de ← pyGetD t "description" (.str "No description")
  .ok { sev := bump sev st.sev
        ips := st.ips ++ elems
        exploits := if ae.truthy then st.exploits ++ [(i, ty, de)] else st.exploits }

structure Result where
  total_threats : Nat
  severity_counts : List (String × Nat)
  unique_ips : List JVal
  total_ips : Nat
  active_exploits : List (JVal × JVal × JVal)
  critical_percentage : ℚ
  deriving DecidableEq

/-- Embeds `analyze_threats` of `src/week4/threats_parser.py`: the severity table
is pre-seeded with CRITICAL/HIGH/MEDIUM/LOW at 0; `all_ips` is a list with
duplicates (`total_ips` counts them), `unique_ips` is `list(set(all_ips))`
(contents deduplicated, order implementation-defined in CPython and never
relied upon; building the set raises on unhashable elements);
`critical_percentage` divides `severity_counts['CRITICAL']` — always
present — by the threat count, `0` when there are no threats. -/
def analyze_threats (threat_data : JVal) : Except PyErr Result := do
  let threatsV ← pyGetD threat_data "threats" (.list [])
  let threats ← pyIter threatsV
  let st ← threats.foldlM step { sev := seed, ips := [], exploits := [] }
  let _ ← ensure (st.ips.all JVal.hashable)
  let uniq := dedupFirst st.ips
  let total := threats.length
  .ok { total_threats := total
        severity_counts := st.sev
        unique_ips := uniq
        total_ips := st.ips.length
        active_exploits := st.exploits
        critical_percentage :=
          if 0 < total then
            (((st.sev.lookup "CRITICAL").getD 0 : ℚ) / (total : ℚ)) * 100
          else 0 }

end ThreatsParser

/-! ## Inversion lemmas for the fallible analyses -/

theorem ensure_ok_iff (b : Bool) (u : Unit) : ensure b = .ok u ↔ b = true := by
  cases b <;> simp [ensure]

/-- Unfolding a successful run of `ThreatParser.analyze_threats` into its
intermediate results. -/
theorem tp_analyze_inv (doc : JVal) (r : ThreatParser.Result)
    (h : ThreatParser.analyze_threats doc = .ok r) :
    ∃ tv threats st sorted_ips,
      pyGetD doc "threats" (JVal.list []) = .ok tv ∧
      pyIter tv = .ok threats ∧
      threats.foldlM ThreatParser.step ⟨[], [], []⟩ = .ok st ∧
      pySorted st.ips = .ok sorted_ips ∧
      r = { total_threats := threats.length, severity_counts := st.sev,
            unique_ips := sorted_ips, total_ips := st.ips.length,
            active_exploits := st.exploits,
            critical_percentage :=
              if 0 < threats.length then
                (((st.sev.lookup (JVal.str "CRITICAL")).getD 0 : ℚ) /
                  (threats.length : ℚ)) * 100
              else 0 } := by
  unfold ThreatParser.analyze_threats at h
  rcases h1 : pyGetD doc "threats" (JVal.list []) with e | tv <;>
    rw [h1] at h <;> simp only [Bind.bind, Except.bind] at h
  · exact Except.noConfusion h
  rcases h2 : pyIter tv with e | threats <;>
    rw [h2] at h <;> simp only [Bind.bind, Except.bind] at h
  · exact Except.noConfusion h
  rcases h3 : threats.foldlM ThreatParser.step ⟨[], [], []⟩ with e | st <;>
    rw [h3] at h <;> simp only [Bind.bind, Except.bind] at h
  · exact Except.noConfusion h
  rcases h4 : pySorted st.ips with e | sorted_ips <;>
    rw [h4] at h <;> simp only [Bind.bind, Except.bind] at h
  · exact Except.noConfusion h
  injection h with h
  exact ⟨tv, threats, st, sorted_ips, rfl, h2, h3, h4, h.symm⟩

/-- Unfolding a successful run of `ThreatsParser.analyze_threats`. -/
theorem tsp_analyze_inv (doc : JVal) (r : ThreatsParser.Result)
    (h : ThreatsParser.analyze_threats doc = .ok r) :
    ∃ tv threats st,
      pyGetD doc "threats" (JVal.list []) = .ok tv ∧
      pyIter tv = .ok threats ∧
      threats.foldlM ThreatsParser.step ⟨ThreatsParser.seed, [], []⟩ = .ok st ∧
      st.ips.all JVal.hashable = true ∧
      r = { total_threats := threats.length, severity_counts := st.sev,
            unique_ips := dedupFirst st.ips, total_ips := st.ips.length,
            active_exploits := st.exploits,
            critical_percentage :=
              if 0 < threats.length then
                (((st.sev.lookup "CRITICAL").getD 0 : ℚ) /
                  (threats.length : ℚ)) * 100
              else 0 } := by
  unfold ThreatsParser.analyze_threats at h
  rcases h1 : pyGetD doc "threats" (JVal.list []) with e | tv <;>
    rw [h1] at h <;> simp only [Bind.bind, Except.bind] at h
  · exact Except.noConfusion h
  rcases h2 : pyIter tv with e | threats <;>
    rw [h2] at h <;> simp only [Bind.bind, Except.bind] at h
  · exact Except.noConfusion h
  rcases h3 : threats.foldlM ThreatsParser.step ⟨ThreatsParser.seed, [], []⟩ with e | st <;>
    rw [h3] at h <;> simp only [Bind.bind, Except.bind] at h
  · exact Except.noConfusion h
  rcases h4 : ensure (st.ips.all JVal.hashable) with e | u <;>
    rw [h4] at h <;> simp only [Bind.bind, Except.bind] at h
  · exact Except.noConfusion h
  injection h with h
  exact ⟨tv, threats, st, rfl, h2, h3, (ensure_ok_iff _ u).1 h4, h.symm⟩

/-- A successful `ThreatsParser.step` reads some severity and bumps it. -/
theorem ThreatsParser.step_ok (st s1 : ThreatsParser.St) (t : JVal)
    (h : ThreatsParser.step st t = .ok s1) :
    ∃ sev, ThreatsParser.sevOf t = .ok sev ∧ s1.sev = bump sev st.sev := by
  unfold ThreatsParser.step at h
  rcases h1 : ThreatsParser.sevOf t with e | sev <;>
    rw [h1] at h <;> simp only [Bind.bind, Except.bind] at h
  · exact Except.noConfusion h
  rcases h2 : ThreatsParser.ipsContrib t with e | elems <;>
    rw [h2] at h <;> simp only [Bind.bind, Except.bind] at h
  · exact Except.noConfusion h
  rcases h3 : pyGetD t "active_exploit" (JVal.bool false) with e | ae <;>
    rw [h3] at h <;> simp only [Bind.bind, Except.bind] at h
  · exact Except.noConfusion h
  rcases h4 : pyGetD t "id" (JVal.str "UNKNOWN") with e | i <;>
    rw [h4] at h <;> simp only [Bind.bind, Except.bind] at h
  · exact Except.noConfusion h
  rcases h5 : pyGetD t "type" (JVal.str "unknown") with e | ty <;>
    rw [h5] at h <;> simp only [Bind.bind, Except.bind] at h
  · exact Except.noConfusion h
  rcases h6 : pyGetD t "description" (JVal.str "No description") with e | de <;>
    rw [h6] at h <;> simp only [Bind.bind, Except.bind] at h
  · exact Except.noConfusion h
  injection h with h
  exact ⟨sev, rfl, by rw [← h]⟩

/-- Whether a threat element's severity (as read by `threats_parser.py`)
is the string `k`. -/
def sevIs (k : String) (t : JVal) : Bool :=
  match ThreatsParser.sevOf t with
  | .ok s => s = k
  | .error _ => false

/-- Invariant of the `threats_parser.py` severity fold: a key present in the
table stays present, and its count grows by exactly the number of threats
whose severity reads as that key. -/
theorem ThreatsParser.fold_sev_count (k : String) :
    ∀ (ts : List JVal) (st st' : ThreatsParser.St) (c : Nat),
      ts.foldlM ThreatsParser.step st = .ok st' →
      st.sev.lookup k = some c →
      st'.sev.lookup k = some (c + ts.countP (sevIs k)) := by
  intro ts
  induction ts with
  | nil =>
    intro st st' c h hc
    simp only [List.foldlM] at h
    injection h with h
    subst h
    simpa using hc
  | cons t ts ih =>
    intro st st' c h hc
    simp only [List.foldlM] at h
    rcases hs : ThreatsParser.step st t with e | s1 <;>
      rw [hs] at h <;> simp only [Bind.bind, Except.bind] at h
    · exact Except.noConfusion h
    rcases ThreatsParser.step_ok st s1 t hs with ⟨sev, hsev, hbump⟩
    by_cases hk : sev = k
    · subst hk
      have hc1 : s1.sev.lookup sev = some (c + 1) := by
        rw [hbump, lookup_bump]
        simp [hc]
      have := ih s1 st' (c + 1) h hc1
      rw [this, List.countP_cons]
      simp [sevIs, hsev]
      omega
    · have hc1 : s1.sev.lookup k = some c := by
        rw [hbump, lookup_bump]
        simp [Ne.symm hk, hc]
      have := ih s1 st' c h hc1
      rw [this, List.countP_cons]
      simp [sevIs, hsev, hk]

/-! ## Small helper lemmas for the claim theorems -/

theorem splitWsAux_nil_all_space :
    ∀ cs : List Char, cs.all isPySpace = true → splitWsAux [] cs = [] := by
  intro cs
  induction cs with
  | nil => intro _; simp [splitWsAux]
  | cons c cs ih =>
    intro h
    rw [List.all_cons, Bool.and_eq_true] at h
    simp [splitWsAux, h.1, ih h.2]

theorem splitWs_all_space (line : String) (h : line.toList.all isPySpace = true) :
    splitWs line = [] := by
  unfold splitWs
  rw [splitWsAux_nil_all_space line.toList h]
  rfl

theorem roundTo_zero (d : Nat) : roundTo d 0 = 0 := by
  simp [roundTo, roundHE]

theorem failureRate_of_parsed_zero (stats : Stats) (h : stats.parsed_lines = 0) :
    failureRate stats = 0 := by
  simp [failureRate, h]

/-! ## Claim C2 — firewall line port parsing

The claim says the port token must parse as a NON-NEGATIVE integer; the
source uses Python `int(parts[5])`, which accepts a sign, so a negative
port is accepted.  The counterexample exhibits this; the theorem proves the
amended statement (any Python-`int`-parsable token, sign included; the
record is all-or-nothing and the batch continues). -/

/-- Claim C2, counterexample: a line whose port token is `"-22"` — which
does not denote a non-negative integer — still yields a fully constructed
record, with negative `port`. -/
theorem C2_negative_port_cex :
    parse_firewall_line "2026-02-10 10:16:01 DENY 203.0.113.5 10.0.0.5 -22" =
      some { date := "2026-02-10", time := "10:16:01", action := "DENY",
             source_ip := "203.0.113.5", dest_ip := "10.0.0.5", port := -22 } ∧
    ¬(0 : Int) ≤ -22 := by
  exact ⟨by decide, by decide⟩

/-- Claim C2 (amended): `parse_firewall_line` yields a record exactly when
the line has at least 6 whitespace-separated tokens and the sixth parses
under Python `int` semantics (sign allowed); the record's port is that
parsed value (all-or-nothing: otherwise the whole line is discarded), and a
discarded line never disturbs the rest of the batch. -/
theorem C2_port_parse_amended (line : String) (pre post : List String) :
    ((parse_firewall_line line).isSome ↔
      6 ≤ (splitWs line).length ∧ (pyInt ((splitWs line).getD 5 "")).isSome) ∧
    (∀ e, parse_firewall_line line = some e →
      pyInt ((splitWs line).getD 5 "") = some e.port) ∧
    (parse_log_file (pre ++ line :: post) =
      parse_log_file pre ++ (parse_firewall_line line).toList ++ parse_log_file post) := by
  refine ⟨?_, ?_, ?_⟩
  · by_cases hsp : line.toList.all isPySpace
    · simp [parse_firewall_line, hsp, splitWs_all_space line hsp]
    · rcases hs : splitWs line with - | ⟨p0, - | ⟨p1, - | ⟨p2, - | ⟨p3, - | ⟨p4, - | ⟨p5, rest⟩⟩⟩⟩⟩⟩ <;>
        simp only [parse_firewall_line, hsp, Bool.false_eq_true, if_false, hs] <;>
        try simp
      cases hp : pyInt p5 <;> simp [hp]
  · intro e he
    by_cases hsp : line.toList.all isPySpace
    · unfold parse_firewall_line at he
      rw [if_pos hsp] at he
      exact Option.noConfusion he
    · rcases hs : splitWs line with - | ⟨p0, - | ⟨p1, - | ⟨p2, - | ⟨p3, - | ⟨p4, - | ⟨p5, rest⟩⟩⟩⟩⟩⟩ <;>
        simp only [parse_firewall_line, hsp, Bool.false_eq_true, if_false, hs] at he <;>
        try exact Option.noConfusion he
      cases hp : pyInt p5 <;> rw [hp] at he
      · exact Option.noConfusion he
      · injection he with he
        subst he
        simp [hp]
  · cases h : parse_firewall_line line <;>
      simp [parse_log_file, List.filterMap_append, List.filterMap_cons, h]

/-! ## Claim C3 — zero denominators yield zero percentages -/

/-- Claim C3: every percentage field (failure rate in both auth reports,
deny rate of the firewall summary, critical-severity percentage in both
threat-analysis variants) equals `0` when its denominator is zero — the
guards in the source select the constant-`0` branch instead of dividing —
and in particular an empty record sequence yields zero rates. -/
theorem C3_zero_denominators :
    (∀ (lines : List String) (analyst : String),
      (process_logs lines).parsed_lines = 0 →
        (build_report_data (process_logs lines) analyst).failure_rate_percent = 0 ∧
        (generate_human_report (process_logs lines) analyst).failure_rate_shown = 0) ∧
    (∀ entries : List Entry,
      (analyze_logs entries).total_entries = 0 → denyPct (analyze_logs entries) = 0) ∧
    (∀ (doc : JVal) (r : ThreatParser.Result),
      ThreatParser.analyze_threats doc = .ok r → r.total_threats = 0 →
        r.critical_percentage = 0) ∧
    (∀ (doc : JVal) (r : ThreatsParser.Result),
      ThreatsParser.analyze_threats doc = .ok r → r.total_threats = 0 →
        r.critical_percentage = 0) ∧
    (build_report_data (process_logs []) "Analyst").failure_rate_percent = 0 ∧
    denyPct (analyze_logs []) = 0 := by
  have hauth : ∀ (lines : List String) (analyst : String),
      (process_logs lines).parsed_lines = 0 →
        (build_report_data (process_logs lines) analyst).failure_rate_percent = 0 ∧
        (generate_human_report (process_logs lines) analyst).failure_rate_shown = 0 := by
    intro lines analyst h
    constructor
    · show roundTo 2 (failureRate (process_logs lines)) = 0
      rw [failureRate_of_parsed_zero _ h, roundTo_zero]
    · show roundTo 1 (failureRate (process_logs lines)) = 0
      rw [failureRate_of_parsed_zero _ h, roundTo_zero]
  have hdeny : ∀ entries : List Entry,
      (analyze_logs entries).total_entries = 0 → denyPct (analyze_logs entries) = 0 := by
    intro entries h
    simp [denyPct, h]
  refine ⟨hauth, hdeny, ?_, ?_, (hauth [] "Analyst" rfl).1, hdeny [] rfl⟩
  · intro doc r h htot
    rcases tp_analyze_inv doc r h with ⟨tv, threats, st, si, -, -, -, -, hr⟩
    rw [hr] at htot ⊢
    simp only at htot
    simp [htot]
  · intro doc r h htot
    rcases tsp_analyze_inv doc r h with ⟨tv, threats, st, -, -, -, -, hr⟩
    rw [hr] at htot ⊢
    simp only at htot
    simp [htot]

/-! ## Claim C9 — no DENY records: no most-targeted port, section omitted -/

/-- Claim C9: when no record has action `DENY`, the denied-port counter is
empty, so `analyze_logs` reports `most_targeted_port = None` and
`most_targeted_count = 0` (no failure on the empty table), and
`display_summary` omits the most-targeted-port section (its truthiness
check fails on `None`). -/
theorem C9_no_deny (entries : List Entry) (h : ∀ e ∈ entries, e.action ≠ "DENY") :
    (analyze_logs entries).most_targeted_port = none ∧
    (analyze_logs entries).most_targeted_count = 0 ∧
    portSection (analyze_logs entries) = [] := by
  have hd : deniedPorts entries = [] := by
    rw [deniedPorts, List.filterMap_eq_nil_iff]
    intro e he
    simp [h e he]
  have h1 : (analyze_logs entries).most_targeted_port = none := by
    simp [analyze_logs, hd, countOcc, sortLe]
  have h2 : (analyze_logs entries).most_targeted_count = 0 := by
    simp [analyze_logs, hd, countOcc, sortLe]
  exact ⟨h1, h2, by simp [portSection, h1]⟩

/-! ## Claim C5 — severity pre-seeding

Only `threats_parser.py` pre-seeds CRITICAL/HIGH/MEDIUM/LOW at zero;
`threat_parser.py` (named by the claim as well) starts from an empty table,
and its report prints only severities with positive counts, so a LOW-only
input yields no CRITICAL entry at all. -/

/-- Claim C5, counterexample: on a document whose single threat has
severity LOW, `threat_parser.py`'s analysis has NO `CRITICAL` key in its
severity table (instead of `CRITICAL: 0`), and its report's severity
breakdown contains only the LOW line. -/
theorem C5_tp_no_preseed_cex :
    ∃ r, ThreatParser.analyze_threats
        (JVal.dict [("threats", JVal.list [JVal.dict [("severity", JVal.str "LOW")]])]) =
        .ok r ∧
      r.severity_counts.lookup (JVal.str "CRITICAL") = none ∧
      ThreatParser.sevLines r = ["LOW: 1 threats"] := by
  exact ⟨_, rfl, rfl, rfl⟩

/-- The threat list extracted from a document
(`threat_data.get('threats', [])` then iteration). -/
def threatsOf (doc : JVal) : Except PyErr (List JVal) := do
  let tv ← pyGetD doc "threats" (.list [])
  pyIter tv

/-- Claim C5 (amended): the `threats_parser.py` variant DOES pre-seed
CRITICAL/HIGH/MEDIUM/LOW at zero: after any successful analysis each of the
four keys is present, with count exactly the number of threats whose
severity reads as that key — in particular `CRITICAL ↦ 0` for a LOW-only
input.  (The `threat_parser.py` variant does not pre-seed; see the
counterexample.) -/
theorem C5_preseed_amended (doc : JVal) (r : ThreatsParser.Result)
    (threats : List JVal)
    (h : ThreatsParser.analyze_threats doc = .ok r)
    (ht : threatsOf doc = .ok threats) :
    ∀ k ∈ ["CRITICAL", "HIGH", "MEDIUM", "LOW"],
      r.severity_counts.lookup k = some (threats.countP (sevIs k)) := by
  rcases tsp_analyze_inv doc r h with ⟨tv, threats', st, h1, h2, h3, -, hr⟩
  have hts : threats' = threats := by
    unfold threatsOf at ht
    rw [h1] at ht
    simp only [Bind.bind, Except.bind] at ht
    rw [h2] at ht
    injection ht with ht
  intro k hk
  rw [← hts]
  have hseed : ThreatsParser.seed.lookup k = some 0 := by
    fin_cases hk <;> rfl
  have hc := ThreatsParser.fold_sev_count k threats' ⟨ThreatsParser.seed, [], []⟩ st 0 h3 hseed
  rw [hr]
  simpa using hc

/-! ## Claim C6 — reading `indicators.ips` -/

/-- Claim C6, counterexample: in `threat_parser.py` a present non-list
`ips` is NOT replaced by an empty list — a string `"ab"` is iterated by the
set update, contributing the two character strings, and a non-iterable
`ips` (an int) raises `TypeError`. -/
theorem C6_nonlist_ips_cex :
    (ThreatParser.analyze_threats
        (JVal.dict [("threats", JVal.list
          [JVal.dict [("indicators", JVal.dict [("ips", JVal.str "ab")])]])])).map
        (fun r => (r.total_ips, r.unique_ips)) =
      .ok (2, [JVal.str "a", JVal.str "b"]) ∧
    ThreatParser.analyze_threats
        (JVal.dict [("threats", JVal.list
          [JVal.dict [("indicators", JVal.dict [("ips", JVal.int 5)])]])]) =
      .error PyErr.typeError := by
  exact ⟨by decide, rfl⟩

/-- Claim C6 (amended): when a threat's `indicators` value is absent or a
mapping, `threats_parser.py` contributes an empty IP list for a missing or
non-list `ips` without raising; `threat_parser.py` does so only for a
MISSING `ips` (a present non-list is iterated or raises — see the
counterexample); and when `indicators` is present but not a mapping, the
read raises `AttributeError` in both variants. -/
theorem C6_ips_read_amended :
    (∀ (kvs ind : List (String × JVal)),
      (kvs.lookup "indicators").getD (JVal.dict []) = JVal.dict ind →
      (∀ xs, ind.lookup "ips" ≠ some (JVal.list xs)) →
      ThreatsParser.ipsContrib (JVal.dict kvs) = .ok []) ∧
    (∀ (kvs ind : List (String × JVal)),
      (kvs.lookup "indicators").getD (JVal.dict []) = JVal.dict ind →
      ind.lookup "ips" = none →
      ThreatParser.ipsContrib (JVal.dict kvs) = .ok []) ∧
    (∀ (kvs : List (String × JVal)) (v : JVal),
      kvs.lookup "indicators" = some v →
      (∀ m, v ≠ JVal.dict m) →
      ThreatsParser.ipsRead (JVal.dict kvs) = .error PyErr.attributeError ∧
      ThreatParser.ipsRead (JVal.dict kvs) = .error PyErr.attributeError) := by
  refine ⟨?_, ?_, ?_⟩
  · intro kvs ind h1 h2
    unfold ThreatsParser.ipsContrib ThreatsParser.ipsRead
    simp only [pyGetD, h1, Bind.bind, Except.bind]
    cases hv : ind.lookup "ips" with
    | none => simp [hv]
    | some w =>
      cases w with
      | list xs => exact absurd hv (h2 xs)
      | null => simp [hv]
      | bool b => simp [hv]
      | int n => simp [hv]
      | str s => simp [hv]
      | dict m => simp [hv]
  · intro kvs ind h1 h2
    unfold ThreatParser.ipsContrib ThreatParser.ipsRead
    simp only [pyGetD, h1, Bind.bind, Except.bind]
    simp [h2, setUpdateElems, pyIter, Bind.bind, Except.bind, ensure]
  · intro kvs v h1 h2
    have hv : ∀ (k : String) (d : JVal), pyGetD v k d = .error PyErr.attributeError := by
      intro k d
      cases v with
      | dict m => exact absurd rfl (h2 m)
      | null => rfl
      | bool b => rfl
      | int n => rfl
      | str s => rfl
      | list xs => rfl
    have hstep : pyGetD (JVal.dict kvs) "indicators" (JVal.dict []) = .ok v := by
      simp [pyGetD, h1]
    constructor
    · unfold ThreatsParser.ipsRead
      rw [hstep]
      simp only [Bind.bind, Except.bind]
      exact hv "ips" (JVal.list [])
    · unfold ThreatParser.ipsRead
      rw [hstep]
      simp only [Bind.bind, Except.bind]
      exact hv "ips" (JVal.list [])

/-! ## Claim C7 — the two auth reports -/

/-- Claim C7, counterexample: with 3 parsed lines and 1 failed login the
shared failure-rate metric is REPORTED differently: the JSON summary rounds
to two decimals (33.33) while the text report shows one decimal (33.3). -/
theorem C7_rate_rounding_cex :
    (build_report_data (process_logs
        ["2025-01-01 10:00:00 user=a status=FAIL",
         "2025-01-01 10:00:01 user=b status=OK",
         "2025-01-01 10:00:02 user=c status=OK"]) "Analyst").failure_rate_percent ≠
    (generate_human_report (process_logs
        ["2025-01-01 10:00:00 user=a status=FAIL",
         "2025-01-01 10:00:01 user=b status=OK",
         "2025-01-01 10:00:02 user=c status=OK"]) "Analyst").failure_rate_shown := by
  have key : ∀ (q : ℚ) (n : ℤ), ⌊q⌋ = n → q - (n : ℚ) < 1 / 2 → roundHE q = n := by
    intro q n hn hlt
    simp only [roundHE]
    rw [hn, if_pos hlt]
  have hp : (process_logs
      ["2025-01-01 10:00:00 user=a status=FAIL",
       "2025-01-01 10:00:01 user=b status=OK",
       "2025-01-01 10:00:02 user=c status=OK"]).parsed_lines = 3 := by decide
  have hf : (process_logs
      ["2025-01-01 10:00:00 user=a status=FAIL",
       "2025-01-01 10:00:01 user=b status=OK",
       "2025-01-01 10:00:02 user=c status=OK"]).fail_count = 1 := by decide
  have hrate : failureRate (process_logs
      ["2025-01-01 10:00:00 user=a status=FAIL",
       "2025-01-01 10:00:01 user=b status=OK",
       "2025-01-01 10:00:02 user=c status=OK"]) = 100 / 3 := by
    rw [failureRate, hp, hf]
    norm_num
  show roundTo 2 (failureRate _) ≠ roundTo 1 (failureRate _)
  rw [hrate]
  have r2 : roundTo 2 ((100 : ℚ) / 3) = 3333 / 100 := by
    rw [roundTo]
    have h1 : roundHE ((100 : ℚ) / 3 * 10 ^ 2) = 3333 := by
      apply key
      · rw [Int.floor_eq_iff]
        constructor <;> norm_num
      · norm_num
    rw [h1]
    norm_num
  have r1 : roundTo 1 ((100 : ℚ) / 3) = 333 / 10 := by
    rw [roundTo]
    have h1 : roundHE ((100 : ℚ) / 3 * 10 ^ 1) = 333 := by
      apply key
      · rw [Int.floor_eq_iff]
        constructor <;> norm_num
      · norm_num
    rw [h1]
    norm_num
  rw [r2, r1]
  norm_num

/-- Claim C7 (amended): for every stats value produced by `process_logs`,
the JSON summary and the human report agree exactly on all shared COUNT
metrics (total lines, parsed lines, failed logins, and the full top-user /
top-IP rankings with their counts), and both failure rates are roundings of
the same underlying ratio `failureRate` — but to different precisions (2
vs 1 decimals), so the two displayed rate values can differ. -/
theorem C7_shared_metrics_amended (lines : List String) (analyst : String) :
    (build_report_data (process_logs lines) analyst).total_logs =
      (generate_human_report (process_logs lines) analyst).total_logs ∧
    (build_report_data (process_logs lines) analyst).parsed_logs =
      (generate_human_report (process_logs lines) analyst).parsed_logs ∧
    (build_report_data (process_logs lines) analyst).failed_logins =
      (generate_human_report (process_logs lines) analyst).failed_logins ∧
    (build_report_data (process_logs lines) analyst).top_users =
      (generate_human_report (process_logs lines) analyst).top_users ∧
    (build_report_data (process_logs lines) analyst).top_ips =
      (generate_human_report (process_logs lines) analyst).top_ips ∧
    (build_report_data (process_logs lines) analyst).failure_rate_percent =
      roundTo 2 (failureRate (process_logs lines)) ∧
    (generate_human_report (process_logs lines) analyst).failure_rate_shown =
      roundTo 1 (failureRate (process_logs lines)) := by
  exact ⟨rfl, rfl, rfl, rfl, rfl, rfl, rfl⟩

/-! ## Claims C8 / C10 — `parse_log_line` -/

theorem applyKV_as_skip :
    ∀ (items : List String) (init : List (String × String)),
      items.foldl applyKV init =
        (items.filterMap kvOf).foldl (fun t kv => dictUpd t kv.1 kv.2) init := by
  intro items
  induction items with
  | nil => intro init; rfl
  | cons x xs ih =>
    intro init
    rw [List.foldl_cons, ih, List.filterMap_cons]
    cases h : kvOf x with
    | none => simp [applyKV, h]
    | some y =>
      obtain ⟨k, v⟩ := y
      simp [applyKV, h]

/-- Looking up a key in the record built by the `parse_log_line` token loop
yields the value of the LAST well-formed `key=value` token for that key,
falling back to the initial `timestamp` binding. -/
theorem lookup_parse_fold (items : List String) (init : List (String × String))
    (k : String) :
    (items.foldl applyKV init).lookup k =
      (((items.filterMap kvOf).reverse.lookup k).or (init.lookup k)) := by
  rw [applyKV_as_skip, lookup_foldl_dictUpd]

theorem lookup_some_mem {β : Type} (l : List (String × β)) (k : String) (v : β)
    (h : l.lookup k = some v) : (k, v) ∈ l := by
  induction l with
  | nil => exact Option.noConfusion h
  | cons p rest ih =>
    obtain ⟨k0, v0⟩ := p
    by_cases hk : k = k0
    · subst hk
      rw [List.lookup_cons] at h
      simp only [beq_self_eq_true] at h
      injection h with h
      subst h
      exact List.mem_cons_self _ _
    · rw [List.lookup_cons] at h
      simp only [beq_eq_false_iff_ne.mpr hk] at h
      exact List.mem_cons_of_mem _ (ih h)

theorem kvOf_eq_some (tok k v : String) :
    kvOf tok = some (k, v) ↔
      (tok.toList = k.toList ++ '=' :: v.toList ∧ k ≠ "" ∧ v ≠ "" ∧
        '=' ∉ k.toList) := by
  constructor
  · intro h
    unfold kvOf at h
    rcases hs : splitEq1 tok.toList with - | ⟨k0, v0⟩ <;> rw [hs] at h
    · exact Option.noConfusion h
    dsimp only at h
    by_cases he : k0.isEmpty || v0.isEmpty
    · rw [if_pos he] at h
      exact Option.noConfusion h
    rw [if_neg he] at h
    injection h with h
    have hk : String.mk k0 = k := congrArg Prod.fst h
    have hv : String.mk v0 = v := congrArg Prod.snd h
    rcases (splitEq1_eq_some tok.toList k0 v0).1 hs with ⟨he0, hne⟩
    simp only [Bool.or_eq_true, not_or, Bool.not_eq_true, List.isEmpty_eq_false] at he
    refine ⟨?_, ?_, ?_, ?_⟩
    · rw [← hk, ← hv]
      exact he0
    · rw [← hk]
      intro hc
      rw [show ("" : String) = String.mk [] from rfl] at hc
      injection hc with hc
      exact he.1 hc
    · rw [← hv]
      intro hc
      rw [show ("" : String) = String.mk [] from rfl] at hc
      injection hc with hc
      exact he.2 hc
    · rw [← hk]
      exact hne
  · rintro ⟨he, hk, hv, hne⟩
    unfold kvOf
    have hs : splitEq1 tok.toList = some (k.toList, v.toList) :=
      (splitEq1_eq_some tok.toList k.toList v.toList).2 ⟨he, hne⟩
    rw [hs]
    have hk' : ¬k.data = [] := fun hc => hk (String.ext hc)
    have hv' : ¬v.data = [] := fun hc => hv (String.ext hc)
    simp [hk', hv', String.toList]

/-- Claim C8: `parse_log_line` returns a record exactly when the line has at
least 3 whitespace-separated tokens with `'-'` in the first and `':'` in the
second; the record starts from `timestamp = parts[0] + " " + parts[1]`, each
later token contributes only when it splits at its first `'='` into a
non-empty key and value (others are silently skipped), and a repeated key
keeps the LAST value (lookup falls back to the initial timestamp binding). -/
theorem C8_parse_log_line_spec (line : String) :
    ((parse_log_line line).isSome ↔
      (3 ≤ (splitWs line).length ∧ '-' ∈ ((splitWs line).getD 0 "").toList ∧
        ':' ∈ ((splitWs line).getD 1 "").toList)) ∧
    (∀ rec k, parse_log_line line = some rec →
      rec.lookup k =
        (((((splitWs line).drop 2).filterMap kvOf).reverse.lookup k).or
          (if k = "timestamp" then
            some (((splitWs line).getD 0 "") ++ " " ++ ((splitWs line).getD 1 ""))
          else none))) ∧
    (∀ tok k v, kvOf tok = some (k, v) ↔
      (tok.toList = k.toList ++ '=' :: v.toList ∧ k ≠ "" ∧ v ≠ "" ∧
        '=' ∉ k.toList)) := by
  refine ⟨?_, ?_, fun tok k v => kvOf_eq_some tok k v⟩
  · by_cases hsp : line.toList.all isPySpace
    · simp [parse_log_line, hsp, splitWs_all_space line hsp]
    · rcases hs : splitWs line with - | ⟨p0, - | ⟨p1, - | ⟨p2, rest⟩⟩⟩ <;>
        simp only [parse_log_line, hsp, Bool.false_eq_true, if_false, hs] <;>
        simp
  · intro rec k hrec
    by_cases hsp : line.toList.all isPySpace
    · unfold parse_log_line at hrec
      rw [if_pos hsp] at hrec
      exact Option.noConfusion hrec
    · rcases hs : splitWs line with - | ⟨p0, - | ⟨p1, - | ⟨p2, rest⟩⟩⟩ <;>
        simp only [parse_log_line, hsp, Bool.false_eq_true, if_false, hs] at hrec <;>
        try exact Option.noConfusion hrec
      by_cases hc : ('-' ∈ p0.toList) ∧ (':' ∈ p1.toList)
      · rw [if_pos hc] at hrec
        injection hrec with hrec
        subst hrec
        rw [lookup_parse_fold]
        simp only [List.drop_succ_cons, List.drop_zero, List.getD_cons_zero,
          List.getD_cons_succ]
        by_cases hk : k = "timestamp"
        · subst hk
          simp [List.lookup_cons]
        · simp [List.lookup_cons, hk, beq_eq_false_iff_ne.mpr hk]
      · rw [if_neg hc] at hrec
        exact Option.noConfusion hrec

/-- Claim C10: a well-formed `timestamp=v` token after the first two tokens
overwrites the timestamp built from them (the record reports the last such
token's value), and every successfully parsed record still has a non-empty
`timestamp`. -/
theorem C10_timestamp_override (line : String) (rec : List (String × String))
    (h : parse_log_line line = some rec) :
    (∀ v, (((splitWs line).drop 2).filterMap kvOf).reverse.lookup "timestamp" = some v →
      rec.lookup "timestamp" = some v) ∧
    (∃ w, rec.lookup "timestamp" = some w ∧ w ≠ "") := by
  by_cases hsp : line.toList.all isPySpace
  · unfold parse_log_line at h
    rw [if_pos hsp] at h
    exact Option.noConfusion h
  rcases hs : splitWs line with - | ⟨p0, - | ⟨p1, - | ⟨p2, rest⟩⟩⟩ <;>
      simp only [parse_log_line, hsp, Bool.false_eq_true, if_false, hs] at h <;>
      try exact Option.noConfusion h
  by_cases hc : ('-' ∈ p0.toList) ∧ (':' ∈ p1.toList)
  · rw [if_pos hc] at h
    injection h with h
    subst h
    constructor
    · intro v hv
      rw [lookup_parse_fold]
      simp only [List.drop_succ_cons, List.drop_zero] at hv
      rw [hv]
      rfl
    · rw [lookup_parse_fold]
      cases hl : ((p2 :: rest).filterMap kvOf).reverse.lookup "timestamp" with
      | some w =>
        refine ⟨w, by simp [hl], ?_⟩
        have hmem := lookup_some_mem _ _ _ hl
        rw [List.mem_reverse, List.mem_filterMap] at hmem
        rcases hmem with ⟨tok, -, htok⟩
        exact ((kvOf_eq_some tok "timestamp" w).1 htok).2.2.1
      | none =>
        refine ⟨p0 ++ " " ++ p1, by simp [hl, List.lookup_cons], ?_⟩
        intro hcon
        have : (p0 ++ " " ++ p1).data = ("" : String).data := by rw [hcon]
        simp only [String.data_append] at this
        have h0 : p0 ≠ "" := by
          intro hp
          rw [hp] at hc
          exact absurd hc.1 (by simp [String.toList])
        cases hd : p0.data with
        | nil => exact h0 (String.ext hd)
        | cons a t =>
          rw [hd] at this
          exact List.noConfusion this
  · rw [if_neg hc] at h
    exact Option.noConfusion h

/-! ## Claim C1 — top-N rankings -/

/-- The head of the stable count-descending sort of a counter
(`most_common(1)[0]`) has maximal count, and among maximal counts the
first-observed key. -/
theorem head_sortCnt_spec {K : Type} [DecidableEq K] (l : List K) (x : K × Nat)
    (hh : (sortLe cntLe (countOcc l)).head? = some x) :
    ∀ q cq, (q, cq) ∈ countOcc l →
      cq ≤ x.2 ∧ (cq = x.2 → l.indexOf x.1 ≤ l.indexOf q) := by
  rcases List.head?_eq_some_iff.1 hh with ⟨tail, ht⟩
  have hsorted := sorted_sortLe cntLe cntLe_total cntLe_trans (countOcc l)
  have hstable := stable_sortLe cntLe (fun a b => l.indexOf a.1 < l.indexOf b.1)
      (countOcc l) (countOcc_pairwise_indexOf l)
  intro q cq hm
  have hmem : (q, cq) ∈ sortLe cntLe (countOcc l) :=
    (sortLe_perm cntLe (countOcc l)).mem_iff.2 hm
  rw [ht] at hmem hsorted hstable
  rcases List.mem_cons.1 hmem with heq | htail
  · have h1 : q = x.1 := by rw [← heq]
    have h2 : cq = x.2 := by rw [← heq]
    exact ⟨le_of_eq h2, fun _ => by rw [h1]⟩
  · have hd := (List.pairwise_cons.1 hsorted).1 _ htail
    have hle : cq ≤ x.2 := by simpa [cntLe] using hd
    refine ⟨hle, fun heq => ?_⟩
    have htie := (List.pairwise_cons.1 hstable).1 _ htail
    have : l.indexOf x.1 < l.indexOf q := by
      apply htie
      constructor <;> simp [cntLe, heq]
    exact le_of_lt this

/-- Claim C1: every top-N ranking the aggregation produces — the top-5
failing users and failing IPs of `auth_scanner.py` and the most-targeted
denied port of `log_analyzer.py` — is ordered by count descending, with
ties resolved by first-observed order of the keys in the input sequence,
and is a function of the input (identical inputs give identical rankings). -/
theorem C1_topN_sorted_stable (lines : List String) (entries : List Entry)
    (analyst : String) :
    ((build_report_data (process_logs lines) analyst).top_users.Pairwise
        (fun a b => b.2 ≤ a.2) ∧
      (build_report_data (process_logs lines) analyst).top_users.Pairwise
        (fun a b => a.2 = b.2 →
          (failUsers lines).indexOf a.1 < (failUsers lines).indexOf b.1)) ∧
    ((build_report_data (process_logs lines) analyst).top_ips.Pairwise
        (fun a b => b.2 ≤ a.2) ∧
      (build_report_data (process_logs lines) analyst).top_ips.Pairwise
        (fun a b => a.2 = b.2 →
          (failIps lines).indexOf a.1 < (failIps lines).indexOf b.1)) ∧
    (∀ p, (analyze_logs entries).most_targeted_port = some p →
      ∀ q cq, (q, cq) ∈ countOcc (deniedPorts entries) →
        cq ≤ (analyze_logs entries).most_targeted_count ∧
        (cq = (analyze_logs entries).most_targeted_count →
          (deniedPorts entries).indexOf p ≤ (deniedPorts entries).indexOf q)) ∧
    (∀ lines2, lines2 = lines →
      (build_report_data (process_logs lines2) analyst).top_users =
        (build_report_data (process_logs lines) analyst).top_users ∧
      (build_report_data (process_logs lines2) analyst).top_ips =
        (build_report_data (process_logs lines) analyst).top_ips) := by
  refine ⟨⟨mostCommon_sorted 5 _, ?_⟩, ⟨mostCommon_sorted 5 _, ?_⟩, ?_, ?_⟩
  · exact mostCommon_stable 5 (countOcc (failUsers lines)) _
      (countOcc_pairwise_indexOf (failUsers lines))
  · exact mostCommon_stable 5 (countOcc (failIps lines)) _
      (countOcc_pairwise_indexOf (failIps lines))
  · intro p hp q cq hm
    simp only [analyze_logs] at hp
    cases hh : (sortLe cntLe (countOcc (deniedPorts entries))).head? with
    | none => rw [hh] at hp; exact Option.noConfusion hp
    | some x =>
      rw [hh] at hp
      injection hp with hp
      have hcount : (analyze_logs entries).most_targeted_count = x.2 := by
        simp only [analyze_logs, hh]
        rfl
      rw [hcount]
      have := head_sortCnt_spec (deniedPorts entries) x hh q cq hm
      rw [← hp]
      exact this
  · intro lines2 h
    subst h
    exact ⟨rfl, rfl⟩

/-! ## Claim C4 — the time range -/

/-- The field bounds guaranteed for every timestamp `parseTs` accepts. -/
def validDT (dt : DT) : Prop :=
  1 ≤ dt.year ∧ dt.year ≤ 9999 ∧ 1 ≤ dt.month ∧ dt.month ≤ 12 ∧
    1 ≤ dt.day ∧ dt.day ≤ 31 ∧ dt.hour ≤ 23 ∧ dt.minute ≤ 59 ∧ dt.second ≤ 59

theorem daysInMonth_le_31 (y m : Nat) : daysInMonth y m ≤ 31 := by
  unfold daysInMonth
  split_ifs <;> omega

theorem mkValidDT_valid (y mo d h mi s : Nat) (dt : DT)
    (hm : mkValidDT y mo d h mi s = some dt) : validDT dt := by
  unfold mkValidDT at hm
  split_ifs at hm with hc
  injection hm with hm
  subst hm
  obtain ⟨h1, h2, h3, h4, h5, h6, h7, h8, h9⟩ := hc
  exact ⟨h1, h2, h3, h4, h5, le_trans h6 (daysInMonth_le_31 y mo), h7, h8, h9⟩

theorem parseTs_valid (s : String) (dt : DT) (h : parseTs s = some dt) :
    validDT dt := by
  unfold parseTs at h
  rcases h1 : digits4 s.toList with - | ⟨y, r1⟩ <;>
    rw [h1] at h <;> simp only [Bind.bind, Option.bind] at h
  · exact Option.noConfusion h
  rcases h2 : expectCh '-' r1 with - | r2 <;>
    rw [h2] at h <;> simp only [Bind.bind, Option.bind] at h
  · exact Option.noConfusion h
  rcases h3 : digits2 r2 with - | ⟨mo, r3⟩ <;>
    rw [h3] at h <;> simp only [Bind.bind, Option.bind] at h
  · exact Option.noConfusion h
  rcases h4 : expectCh '-' r3 with - | r4 <;>
    rw [h4] at h <;> simp only [Bind.bind, Option.bind] at h
  · exact Option.noConfusion h
  rcases h5 : digits2 r4 with - | ⟨d, r5⟩ <;>
    rw [h5] at h <;> simp only [Bind.bind, Option.bind] at h
  · exact Option.noConfusion h
  rcases h6 : expectCh ' ' r5 with - | r6 <;>
    rw [h6] at h <;> simp only [Bind.bind, Option.bind] at h
  · exact Option.noConfusion h
  rcases h7 : digits2 r6 with - | ⟨hh, r7⟩ <;>
    rw [h7] at h <;> simp only [Bind.bind, Option.bind] at h
  · exact Option.noConfusion h
  rcases h8 : expectCh ':' r7 with - | r8 <;>
    rw [h8] at h <;> simp only [Bind.bind, Option.bind] at h
  · exact Option.noConfusion h
  rcases h9 : digits2 r8 with - | ⟨mi, r9⟩ <;>
    rw [h9] at h <;> simp only [Bind.bind, Option.bind] at h
  · exact Option.noConfusion h
  rcases h10 : expectCh ':' r9 with - | r10 <;>
    rw [h10] at h <;> simp only [Bind.bind, Option.bind] at h
  · exact Option.noConfusion h
  rcases h11 : digits2 r10 with - | ⟨sec, r11⟩ <;>
    rw [h11] at h <;> simp only [Bind.bind, Option.bind] at h
  · exact Option.noConfusion h
  by_cases he : r11.isEmpty
  · rw [if_pos he] at h
    exact mkValidDT_valid y mo d hh mi sec dt h
  · rw [if_neg he] at h
    exact Option.noConfusion h

theorem toKey_inj (a b : DT) (ha : validDT a) (hb : validDT b)
    (h : toKey a = toKey b) : a = b := by
  obtain ⟨ay, amo, ad, ah, ami, as⟩ := a
  obtain ⟨by_, bmo, bd, bh, bmi, bs⟩ := b
  simp only [toKey] at h
  simp only [validDT] at ha hb
  simp only [DT.mk.injEq]
  omega

theorem pairwise_head_le {α : Type} (le : α → α → Bool) (hrefl : ∀ a, le a a)
    (l : List α) (x : α) (h : l.Pairwise (fun a b => le a b))
    (hh : l.head? = some x) : ∀ y ∈ l, le x y := by
  rcases List.head?_eq_some_iff.1 hh with ⟨t, ht⟩
  subst ht
  intro y hy
  rcases List.mem_cons.1 hy with rfl | hy
  · exact hrefl y
  · exact (List.pairwise_cons.1 h).1 y hy

theorem pairwise_getLast_ge {α : Type} (le : α → α → Bool) (hrefl : ∀ a, le a a) :
    ∀ (l : List α) (x : α), l.Pairwise (fun a b => le a b) →
      l.getLast? = some x → ∀ y ∈ l, le y x := by
  intro l
  induction l with
  | nil =>
    intro x _ hl
    exact absurd hl (by simp)
  | cons a t ih =>
    intro x hp hl y hy
    cases t with
    | nil =>
      have hx : a = x := by
        simpa using hl
      subst hx
      have : y = a := by simpa using hy
      subst this
      exact hrefl y
    | cons b t2 =>
      have hl2 : (b :: t2).getLast? = some x := by
        simpa using hl
      rcases List.mem_cons.1 hy with rfl | hy2
      · exact (List.pairwise_cons.1 hp).1 x (List.mem_of_getLast?_eq_some hl2)
      · exact ih x (List.pairwise_cons.1 hp).2 hl2 y hy2

theorem tsLe_refl (a : DT) : tsLe a a := by simp [tsLe]

theorem tsLe_total (a b : DT) : tsLe a b ∨ tsLe b a := by
  simp [tsLe]
  omega

theorem tsLe_trans (a b c : DT) : tsLe a b → tsLe b c → tsLe a c := by
  simp [tsLe]
  omega

theorem mem_ts_valid (l : List Entry) (d : DT) (h : d ∈ l.filterMap entryTs) :
    validDT d := by
  rcases List.mem_filterMap.1 h with ⟨e, -, he⟩
  exact parseTs_valid _ d he

theorem time_first_def (l : List Entry) :
    (analyze_logs l).time_first =
      (match (sortLe tsLe (l.filterMap entryTs)).head? with
        | some dt => fmtDT dt
        | none => "N/A") := rfl

theorem time_last_def (l : List Entry) :
    (analyze_logs l).time_last =
      (match (sortLe tsLe (l.filterMap entryTs)).getLast? with
        | some dt => fmtDT dt
        | none => "N/A") := rfl

theorem time_na_spec (l : List Entry) (h : l.filterMap entryTs = []) :
    (analyze_logs l).time_first = "N/A" ∧ (analyze_logs l).time_last = "N/A" := by
  rw [time_first_def, time_last_def, h]
  exact ⟨rfl, rfl⟩

theorem time_ends_spec (l : List Entry) (h : l.filterMap entryTs ≠ []) :
    ∃ dmin, dmin ∈ l.filterMap entryTs ∧ ∃ dmax, dmax ∈ l.filterMap entryTs ∧
      (analyze_logs l).time_first = fmtDT dmin ∧
      (analyze_logs l).time_last = fmtDT dmax ∧
      ∀ d ∈ l.filterMap entryTs, toKey dmin ≤ toKey d ∧ toKey d ≤ toKey dmax := by
  have hperm := sortLe_perm tsLe (l.filterMap entryTs)
  have hne : sortLe tsLe (l.filterMap entryTs) ≠ [] := by
    intro hc
    rw [hc] at hperm
    have hlen : (l.filterMap entryTs).length = 0 := by
      simpa using hperm.length_eq.symm
    exact h (List.length_eq_zero.1 hlen)
  have hsorted := sorted_sortLe tsLe tsLe_total tsLe_trans (l.filterMap entryTs)
  cases hh : (sortLe tsLe (l.filterMap entryTs)).head? with
  | none => exact absurd (List.head?_eq_none_iff.1 hh) hne
  | some dmin =>
    cases hgl : (sortLe tsLe (l.filterMap entryTs)).getLast? with
    | none => exact absurd (List.getLast?_eq_none_iff.1 hgl) hne
    | some dmax =>
      have hdmin_mem : dmin ∈ l.filterMap entryTs := by
        rcases List.head?_eq_some_iff.1 hh with ⟨t, ht⟩
        exact hperm.mem_iff.1 (ht ▸ List.mem_cons_self _ _)
      have hdmax_mem : dmax ∈ l.filterMap entryTs :=
        hperm.mem_iff.1 (List.mem_of_getLast?_eq_some hgl)
      refine ⟨dmin, hdmin_mem, dmax, hdmax_mem, ?_, ?_, ?_⟩
      · rw [time_first_def, hh]
      · rw [time_last_def, hgl]
      · intro d hd
        have hd' : d ∈ sortLe tsLe (l.filterMap entryTs) := hperm.mem_iff.2 hd
        constructor
        · have := pairwise_head_le tsLe tsLe_refl _ dmin hsorted hh d hd'
          simpa [tsLe] using this
        · have := pairwise_getLast_ge tsLe tsLe_refl _ dmax hsorted hgl d hd'
          simpa [tsLe] using this

/-- Claim C4: the reported time range is the pair (min, max) of the
successfully parsed timestamps, formatted back to the canonical
`YYYY-MM-DD HH:MM:SS` form; unparsable timestamps are simply excluded
(`filterMap`); when nothing parses both ends are `"N/A"`; and the reported
pair does not depend on the order of the records. -/
theorem C4_time_range (l : List Entry) :
    ((l.filterMap entryTs = [] →
      (analyze_logs l).time_first = "N/A" ∧ (analyze_logs l).time_last = "N/A") ∧
    (l.filterMap entryTs ≠ [] →
      ∃ dmin, dmin ∈ l.filterMap entryTs ∧ ∃ dmax, dmax ∈ l.filterMap entryTs ∧
        (analyze_logs l).time_first = fmtDT dmin ∧
        (analyze_logs l).time_last = fmtDT dmax ∧
        ∀ d ∈ l.filterMap entryTs, toKey dmin ≤ toKey d ∧ toKey d ≤ toKey dmax)) ∧
    (∀ l' : List Entry, List.Perm l l' →
      (analyze_logs l').time_first = (analyze_logs l).time_first ∧
      (analyze_logs l').time_last = (analyze_logs l).time_last) := by
  refine ⟨⟨time_na_spec l, time_ends_spec l⟩, ?_⟩
  intro l' hp
  have hts : List.Perm (l.filterMap entryTs) (l'.filterMap entryTs) :=
    hp.filterMap entryTs
  by_cases h : l.filterMap entryTs = []
  · have h' : l'.filterMap entryTs = [] := by
      rw [h] at hts
      have hlen : (l'.filterMap entryTs).length = 0 := by
        simpa using hts.length_eq.symm
      exact List.length_eq_zero.1 hlen
    rcases time_na_spec l h with ⟨h1, h2⟩
    rcases time_na_spec l' h' with ⟨h1', h2'⟩
    rw [h1, h2, h1', h2']
    exact ⟨rfl, rfl⟩
  · have h' : l'.filterMap entryTs ≠ [] := by
      intro hc
      rw [hc] at hts
      have hlen : (l.filterMap entryTs).length = 0 := by
        simpa using hts.length_eq
      exact h (List.length_eq_zero.1 hlen)
    rcases time_ends_spec l h with
      ⟨dmin, hmin_mem, dmax, hmax_mem, htf, htl, hbound⟩
    rcases time_ends_spec l' h' with
      ⟨dmin', hmin_mem', dmax', hmax_mem', htf', htl', hbound'⟩
    have hmin_eq : dmin' = dmin := by
      apply toKey_inj _ _ (mem_ts_valid l' _ hmin_mem') (mem_ts_valid l _ hmin_mem)
      have h1 : toKey dmin' ≤ toKey dmin :=
        (hbound' dmin (hts.mem_iff.1 hmin_mem)).1
      have h2 : toKey dmin ≤ toKey dmin' :=
        (hbound dmin' (hts.mem_iff.2 hmin_mem')).1
      omega
    have hmax_eq : dmax' = dmax := by
      apply toKey_inj _ _ (mem_ts_valid l' _ hmax_mem') (mem_ts_valid l _ hmax_mem)
      have h1 : toKey dmax ≤ toKey dmax' :=
        (hbound' dmax (hts.mem_iff.1 hmax_mem)).2
      have h2 : toKey dmax' ≤ toKey dmax :=
        (hbound dmax' (hts.mem_iff.2 hmax_mem')).2
      omega
    rw [htf, htl, htf', htl', hmin_eq, hmax_eq]
    exact ⟨rfl, rfl⟩

/-! ## Witnesses: the claim theorems applied at concrete inputs -/

theorem C1_topN_sorted_stable_wit :
    (1 : Nat) ≤ (analyze_logs
        [{ date := "2026-02-10", time := "10:16:01", action := "DENY",
           source_ip := "a", dest_ip := "b", port := 22 },
         { date := "2026-02-10", time := "10:16:45", action := "DENY",
           source_ip := "a", dest_ip := "b", port := 443 }]).most_targeted_count ∧
    (deniedPorts
        [{ date := "2026-02-10", time := "10:16:01", action := "DENY",
           source_ip := "a", dest_ip := "b", port := 22 },
         { date := "2026-02-10", time := "10:16:45", action := "DENY",
           source_ip := "a", dest_ip := "b", port := 443 }]).indexOf (22 : Int) ≤
      (deniedPorts
        [{ date := "2026-02-10", time := "10:16:01", action := "DENY",
           source_ip := "a", dest_ip := "b", port := 22 },
         { date := "2026-02-10", time := "10:16:45", action := "DENY",
           source_ip := "a", dest_ip := "b", port := 443 }]).indexOf (443 : Int) := by
  have h := (C1_topN_sorted_stable ["2025-01-01 00:00:00 user=u1 status=FAIL"]
      [{ date := "2026-02-10", time := "10:16:01", action := "DENY",
         source_ip := "a", dest_ip := "b", port := 22 },
       { date := "2026-02-10", time := "10:16:45", action := "DENY",
         source_ip := "a", dest_ip := "b", port := 443 }]
      "Analyst").2.2.1 22 (by decide) 443 1 (by decide)
  exact ⟨h.1, h.2 (by decide)⟩

theorem C2_port_parse_amended_wit :
    pyInt ((splitWs "2026-02-10 10:16:01 DENY 203.0.113.5 10.0.0.5 -22").getD 5 "") =
      some (({ date := "2026-02-10", time := "10:16:01", action := "DENY",
               source_ip := "203.0.113.5", dest_ip := "10.0.0.5",
               port := -22 } : Entry).port) := by
  exact (C2_port_parse_amended
      "2026-02-10 10:16:01 DENY 203.0.113.5 10.0.0.5 -22" [] []).2.1
    { date := "2026-02-10", time := "10:16:01", action := "DENY",
      source_ip := "203.0.113.5", dest_ip := "10.0.0.5", port := -22 }
    (by decide)

theorem C3_zero_denominators_wit :
    (build_report_data (process_logs ["not a log line"]) "A").failure_rate_percent = 0 ∧
    denyPct (analyze_logs []) = 0 := by
  exact ⟨(C3_zero_denominators.1 ["not a log line"] "A" (by decide)).1,
    C3_zero_denominators.2.1 [] (by decide)⟩

theorem C4_time_range_wit :
    ((analyze_logs ([] : List Entry)).time_first = "N/A" ∧
      (analyze_logs ([] : List Entry)).time_last = "N/A") ∧
    ((analyze_logs
        [{ date := "2026-02-10", time := "10:18:03", action := "ALLOW",
           source_ip := "a", dest_ip := "b", port := 80 },
         { date := "2026-02-10", time := "10:15:32", action := "ALLOW",
           source_ip := "a", dest_ip := "b", port := 80 }]).time_first =
      (analyze_logs
        [{ date := "2026-02-10", time := "10:15:32", action := "ALLOW",
           source_ip := "a", dest_ip := "b", port := 80 },
         { date := "2026-02-10", time := "10:18:03", action := "ALLOW",
           source_ip := "a", dest_ip := "b", port := 80 }]).time_first ∧
      (analyze_logs
        [{ date := "2026-02-10", time := "10:18:03", action := "ALLOW",
           source_ip := "a", dest_ip := "b", port := 80 },
         { date := "2026-02-10", time := "10:15:32", action := "ALLOW",
           source_ip := "a", dest_ip := "b", port := 80 }]).time_last =
      (analyze_logs
        [{ date := "2026-02-10", time := "10:15:32", action := "ALLOW",
           source_ip := "a", dest_ip := "b", port := 80 },
         { date := "2026-02-10", time := "10:18:03", action := "ALLOW",
           source_ip := "a", dest_ip := "b", port := 80 }]).time_last) := by
  refine ⟨(C4_time_range []).1.1 rfl, ?_⟩
  exact (C4_time_range
      [{ date := "2026-02-10", time := "10:15:32", action := "ALLOW",
         source_ip := "a", dest_ip := "b", port := 80 },
       { date := "2026-02-10", time := "10:18:03", action := "ALLOW",
         source_ip := "a", dest_ip := "b", port := 80 }]).2
    [{ date := "2026-02-10", time := "10:18:03", action := "ALLOW",
       source_ip := "a", dest_ip := "b", port := 80 },
     { date := "2026-02-10", time := "10:15:32", action := "ALLOW",
       source_ip := "a", dest_ip := "b", port := 80 }]
    (List.Perm.swap _ _ [])

theorem C5_preseed_amended_wit :
    ∃ sc : List (String × Nat),
      sc = [("CRITICAL", 0), ("HIGH", 0), ("MEDIUM", 0), ("LOW", 1)] ∧
      sc.lookup "CRITICAL" =
        some ([JVal.dict [("severity", JVal.str "LOW")]].countP (sevIs "CRITICAL")) := by
  have hmap : (ThreatsParser.analyze_threats
      (JVal.dict [("threats", JVal.list
        [JVal.dict [("severity", JVal.str "LOW")]])])).map
        (fun r => r.severity_counts) =
      .ok [("CRITICAL", 0), ("HIGH", 0), ("MEDIUM", 0), ("LOW", 1)] := by decide
  rcases hx : ThreatsParser.analyze_threats
      (JVal.dict [("threats", JVal.list
        [JVal.dict [("severity", JVal.str "LOW")]])]) with e | r
  · rw [hx] at hmap
    exact absurd hmap (by simp [Except.map])
  · rw [hx] at hmap
    simp only [Except.map] at hmap
    injection hmap with hmap
    refine ⟨r.severity_counts, hmap, ?_⟩
    exact C5_preseed_amended
      (JVal.dict [("threats", JVal.list [JVal.dict [("severity", JVal.str "LOW")]])])
      r [JVal.dict [("severity", JVal.str "LOW")]] hx (by decide) "CRITICAL" (by decide)

theorem C6_ips_read_amended_wit :
    ThreatsParser.ipsContrib
      (JVal.dict [("indicators", JVal.dict [("ips", JVal.int 5)])]) = .ok [] := by
  refine C6_ips_read_amended.1 [("indicators", JVal.dict [("ips", JVal.int 5)])]
    [("ips", JVal.int 5)] (by decide) ?_
  intro xs hc
  rw [show ([("ips", JVal.int 5)] : List (String × JVal)).lookup "ips" =
      some (JVal.int 5) from rfl] at hc
  injection hc with hc
  exact JVal.noConfusion hc

theorem C8_parse_log_line_spec_wit :
    ([("timestamp", "2025-01-01 09:00:00"), ("user", "admin")] :
        List (String × String)).lookup "user" =
      (((((splitWs "2025-01-01 09:00:00 user=admin").drop 2).filterMap
          kvOf).reverse.lookup "user").or
        (if "user" = "timestamp" then
          some (((splitWs "2025-01-01 09:00:00 user=admin").getD 0 "") ++ " " ++
            ((splitWs "2025-01-01 09:00:00 user=admin").getD 1 ""))
        else none)) := by
  exact (C8_parse_log_line_spec "2025-01-01 09:00:00 user=admin").2.1
    [("timestamp", "2025-01-01 09:00:00"), ("user", "admin")] "user" (by decide)

theorem C9_no_deny_wit :
    (analyze_logs
        [{ date := "2026-02-10", time := "10:15:32", action := "ALLOW",
           source_ip := "a", dest_ip := "b", port := 80 }]).most_targeted_port = none ∧
    (analyze_logs
        [{ date := "2026-02-10", time := "10:15:32", action := "ALLOW",
           source_ip := "a", dest_ip := "b", port := 80 }]).most_targeted_count = 0 ∧
    portSection (analyze_logs
        [{ date := "2026-02-10", time := "10:15:32", action := "ALLOW",
           source_ip := "a", dest_ip := "b", port := 80 }]) = [] := by
  exact C9_no_deny
    [{ date := "2026-02-10", time := "10:15:32", action := "ALLOW",
       source_ip := "a", dest_ip := "b", port := 80 }]
    (by decide)

theorem C10_timestamp_override_wit :
    ([("timestamp", "override")] : List (String × String)).lookup "timestamp" =
      some "override" ∧
    ∃ w, ([("timestamp", "override")] : List (String × String)).lookup "timestamp" =
      some w ∧ w ≠ "" := by
  have h := C10_timestamp_override "2025-01-01 09:00:00 timestamp=override"
    [("timestamp", "override")] (by decide)
  exact ⟨h.1 "override" (by decide), h.2⟩
